import Mathlib

/-!
# Dart generator of the frugal compiler (`compiler/generator/dartlang/generator.go`)

A shallow embedding of the Dart back-end: the generator functions become pure
functions from the parsed model to the text they write, and the text they emit
for a publisher and a subscriber is related to a small abstract syntax of the
emitted Dart procedures, over which the run-time behaviour is stated.
-/

namespace Dartlang

/-! ## The parsed model (`parser.Program`, `parser.Scope`, ...) -/

/-- An operation of a scope: `parser.Operation`, fields `Name` and `Param`. -/
structure Operation where
  Name : String
  Param : String
deriving DecidableEq, Repr

/-- The prefix of a scope: `parser.ScopePrefix`, the declared text and its variables. -/
structure ScopePrefix where
  Str : String
  Variables : List String
deriving DecidableEq, Repr

/-- A scope: `parser.Scope`. -/
structure Scope where
  Name : String
  Prefix : ScopePrefix
  Operations : List Operation
deriving DecidableEq, Repr

/-- A program: `parser.Program`; `Namespaces` is the map from target language to namespace,
kept as an association list. -/
structure Program where
  Name : String
  Namespaces : List (String × String)
  Scopes : List Scope
deriving DecidableEq, Repr

/-- What the generator takes from other packages: `globals.TopicDelimiter`, `globals.Version`,
`generator.FilePrefix`, the method `(*parser.ScopePrefix).Template` and `strings.ToLower`. -/
structure Globals where
  TopicDelimiter : String
  Version : String
  FilePrefix : String
  Template : ScopePrefix → String
  ToLower : String → String

/-- The constant `lang`. -/
def lang : String := "dart"

/-- The constant `defaultOutputDir`. -/
def defaultOutputDir : String := "gen-dart"

/-! ## The generator functions -/

/-- The function `generatePrefixStringTemplate` (lines 248-262): the loop over the variables
carries the text built so far and the separator (the variable `prefix` of the source). -/
def generatePrefixStringTemplate (G : Globals) (scope : Scope) : String :=
  if scope.Prefix.Variables.length = 0 then
    ""
  else
    let template := "fmt.Sprintf(\""
    let template := template ++ G.Template scope.Prefix
    let template := template ++ (G.TopicDelimiter ++ "\", ")
    let sep := ""
    let r := scope.Prefix.Variables.foldl
      (fun (st : String × String) v => (st.1 ++ (st.2 ++ v), ", "))
      (template, sep)
    let template := r.1 ++ ")"
    template

/-- The text written by `GenerateConstants` (lines 200-204). -/
def GenerateConstants (G : Globals) ( _name : String) : String :=
  "const String delimiter = '" ++ G.TopicDelimiter ++ "';"

/-- The pieces appended for one operation by the loop of `GeneratePublisher` (lines 227-239),
in the order of the `publishers +=` statements. -/
def publishPieces (G : Globals) (scope : Scope) (op : Operation) : List String :=
  [ "\tpublish" ++ op.Name ++ "(t_" ++ G.ToLower op.Param ++ "." ++ op.Param ++ " req) \x7b\n",
    "\t\tvar op = \"" ++ op.Name ++ "\";\n",
    "\t\tvar prefix = \"" ++ generatePrefixStringTemplate G scope ++ "\";\n",
    "\t\tvar topic = \"$\x7bprefix\x7d" ++ scope.Name ++ "$\x7bdelimiter\x7d$\x7bop\x7d\";\n",
    "\t\ttransport.preparePublish(topic);\n",
    "\t\tvar oprot = protocol;\n",
    "\t\tseqId++;\n",
    "\t\tvar msg = new thrift.TMessage(op, thrift.TMessageType.CALL, seqId);\n",
    "\t\toprot.writeMessageBegin(msg);\n",
    "\t\treq.write(oprot);\n",
    "\t\toprot.writeMessageEnd();\n",
    "\t\treturn oprot.transport.flush();\n",
    "\t\x7d\n" ]

/-- The pieces appended by `GeneratePublisher` before its loop (lines 207-220). -/
def publisherHeadPieces (scope : Scope) : List String :=
  [ "class " ++ scope.Name ++ "Publisher \x7b\n",
    "\tfrugal.Transport transport;\n",
    "\tthrift.TProtocol protocol;\n",
    "\tint seqId;\n\n",
    "\t" ++ scope.Name ++ "Publisher(frugal.TransportFactory t, thrift.TTransportFactory f, "
      ++ "thrift.TProtocolFactory p) \x7b\n",
    "\t\tvar provider = new frugal.Provider(t, f, p);\n",
    "\t\tvar tp = provider.newTransportProtocol();\n",
    "\t\ttransport = tp.transport;\n",
    "\t\tprotocol = tp.protocol;\n",
    "\t\tseqId = 0;\n",
    "\t\x7d\n\n" ]

/-- Appending pieces one after the other: a run of `s += piece` statements. -/
def appendAll (s : String) (pieces : List String) : String :=
  pieces.foldl (fun acc piece => acc ++ piece) s

/-- The text written by `GeneratePublisher` (lines 206-246): the loop state is the text
`publishers` and the separator (the variable `prefix` of the source), which is empty before the first operation. -/
def GeneratePublisher (G : Globals) (scope : Scope) : String :=
  let publishers := ""
  let publishers := appendAll publishers (publisherHeadPieces scope)
  let sep := ""
  let r := scope.Operations.foldl
    (fun (st : String × String) op =>
      let publishers := st.1 ++ st.2
      (appendAll publishers (publishPieces G scope op), "\n\n"))
    (publishers, sep)
  let publishers := r.1 ++ "\x7d\n"
  publishers

/-- The pieces appended for one operation by the loop of `GenerateSubscriber` for the
procedure `subscribe<Op>` (lines 280-291). -/
def subscribePieces (G : Globals) (scope : Scope) (op : Operation) : List String :=
  let paramLower := G.ToLower op.Param
  [ "\tsubscribe" ++ op.Name ++ "(dynamic on" ++ op.Param ++ "(t_" ++ paramLower ++ "."
      ++ op.Param ++ " req)) async \x7b\n",
    "\t\tvar op = \"" ++ op.Name ++ "\";\n",
    "\t\tvar prefix = \"" ++ generatePrefixStringTemplate G scope ++ "\";\n",
    "\t\tvar topic = \"$\x7bprefix\x7d" ++ scope.Name ++ "$\x7bdelimiter\x7d$\x7bop\x7d\";\n",
    "\t\tvar tp = provider.newTransportProtocol();\n",
    "\t\tawait tp.transport.subscribe(topic);\n",
    "\t\ttp.transport.signalRead.listen((_) \x7b\n",
    "\t\t\ton" ++ op.Param ++ "(_recv" ++ op.Name ++ "(op, tp.protocol));\n",
    "\t\t\x7d);\n",
    "\t\treturn new frugal.Subscription(topic, tp.transport);\n",
    "\t\x7d\n\n" ]

/-- The pieces appended for one operation by the loop of `GenerateSubscriber` for the
routine `_recv<Op>` (lines 293-306). -/
def recvPieces (G : Globals) (op : Operation) : List String :=
  let paramLower := G.ToLower op.Param
  [ "\tt_" ++ paramLower ++ "." ++ op.Param ++ " _recv" ++ op.Name
      ++ "(String op, thrift.TProtocol iprot) \x7b\n",
    "\t\tvar tMsg = iprot.readMessageBegin();\n",
    "\t\tif (tMsg.name != op) \x7b\n",
    "\t\t\tthrift.TProtocolUtil.skip(iprot, thrift.TType.STRUCT);\n",
    "\t\t\tiprot.readMessageEnd();\n",
    "\t\t\tthrow new thrift.TApplicationError(\n",
    "\t\t\t\tthrift.TApplicationErrorType.UNKNOWN_METHOD, tMsg.name);\n",
    "\t\t\x7d\n",
    "\t\tvar req = new t_" ++ paramLower ++ "." ++ op.Param ++ "();\n",
    "\t\treq.read(iprot);\n",
    "\t\tiprot.readMessageEnd();\n",
    "\t\treturn req;\n",
    "\t\x7d\n" ]

/-- The pieces appended by `GenerateSubscriber` before its loop (lines 265-272). -/
def subscriberHeadPieces (scope : Scope) : List String :=
  [ "class " ++ scope.Name ++ "Subscriber \x7b\n",
    "\tfrugal.Provider provider;\n\n",
    "\t" ++ scope.Name ++ "Subscriber(frugal.TransportFactory t, thrift.TTransportFactory f, "
      ++ "thrift.TProtocolFactory p) \x7b\n",
    "\t\tprovider = new frugal.Provider(t, f, p);\n",
    "\t\x7d\n\n" ]

/-- The text written by `GenerateSubscriber` (lines 264-313). -/
def GenerateSubscriber (G : Globals) (scope : Scope) : String :=
  let subscribers := ""
  let subscribers := appendAll subscribers (subscriberHeadPieces scope)
  let sep := ""
  let r := scope.Operations.foldl
    (fun (st : String × String) op =>
      let subscribers := st.1 ++ st.2
      (appendAll subscribers (subscribePieces G scope op ++ recvPieces G op), "\n\n"))
    (subscribers, sep)
  let subscribers := r.1 ++ "\x7d\n"
  subscribers

/-! ## The emitted Dart, as syntax

The procedures the generator emits are described by a small abstract syntax. Each
constructor stands for one emitted statement; `render` gives back the emitted text. -/

/-- The message types of the Thrift Dart library (`thrift.TMessageType`). -/
inductive TMessageType where
  | CALL
  | REPLY
  | EXCEPTION
  | ONEWAY
deriving DecidableEq, Repr

/-- The Dart name of a message type. -/
def TMessageType.dartName : TMessageType → String
  | .CALL => "CALL"
  | .REPLY => "REPLY"
  | .EXCEPTION => "EXCEPTION"
  | .ONEWAY => "ONEWAY"

/-- A statement of an emitted `publish<Op>` procedure. -/
inductive PubStmt where
  /-- The statement `var <name> = "<lit>";`. -/
  | varStr (name lit : String)
  /-- The statement `transport.preparePublish(topic);`. -/
  | preparePublish
  /-- The statement `var oprot = protocol;`. -/
  | varOprot
  /-- The statement `seqId++;`. -/
  | incSeqId
  /-- The statement `var msg = new thrift.TMessage(op, thrift.TMessageType.<tag>, seqId);`. -/
  | newMsg (tag : TMessageType)
  /-- The statement `oprot.writeMessageBegin(msg);`. -/
  | writeMessageBegin
  /-- The statement `req.write(oprot);`. -/
  | writeReq
  /-- The statement `oprot.writeMessageEnd();`. -/
  | writeMessageEnd
  /-- The statement `return oprot.transport.flush();`. -/
  | returnFlush
deriving DecidableEq, Repr

/-- The text of a statement of a publish procedure. -/
def PubStmt.render : PubStmt → String
  | .varStr name lit => "\t\tvar " ++ name ++ " = \"" ++ lit ++ "\";\n"
  | .preparePublish => "\t\ttransport.preparePublish(topic);\n"
  | .varOprot => "\t\tvar oprot = protocol;\n"
  | .incSeqId => "\t\tseqId++;\n"
  | .newMsg tag =>
      "\t\tvar msg = new thrift.TMessage(op, thrift.TMessageType." ++ tag.dartName ++ ", seqId);\n"
  | .writeMessageBegin => "\t\toprot.writeMessageBegin(msg);\n"
  | .writeReq => "\t\treq.write(oprot);\n"
  | .writeMessageEnd => "\t\toprot.writeMessageEnd();\n"
  | .returnFlush => "\t\treturn oprot.transport.flush();\n"

/-- An emitted procedure `publish<Op>`: its name, its parameters (type and name) and its body. -/
structure PubProc where
  name : String
  params : List (String × String)
  body : List PubStmt
deriving DecidableEq, Repr

/-- The text of a parameter list: `<type> <name>` separated by `, `. -/
def renderParams (params : List (String × String)) : String :=
  String.intercalate ", " (params.map fun p => p.1 ++ " " ++ p.2)

/-- The text of a publish procedure. -/
def PubProc.render (p : PubProc) : String :=
  "\t" ++ p.name ++ "(" ++ renderParams p.params ++ ") \x7b\n"
    ++ String.join (p.body.map PubStmt.render) ++ "\t\x7d\n"

/-- A statement of the emitted publisher constructor. -/
inductive CtorStmt where
  /-- The statement `var provider = new frugal.Provider(t, f, p);`. -/
  | newProvider
  /-- The statement `var tp = provider.newTransportProtocol();`. -/
  | newTransportProtocol
  /-- The statement `transport = tp.transport;`. -/
  | setTransport
  /-- The statement `protocol = tp.protocol;`. -/
  | setProtocol
  /-- The statement `seqId = <n>;`. -/
  | setSeqId (n : Nat)
deriving DecidableEq, Repr

/-- The text of a statement of the publisher constructor. -/
def CtorStmt.render : CtorStmt → String
  | .newProvider => "\t\tvar provider = new frugal.Provider(t, f, p);\n"
  | .newTransportProtocol => "\t\tvar tp = provider.newTransportProtocol();\n"
  | .setTransport => "\t\ttransport = tp.transport;\n"
  | .setProtocol => "\t\tprotocol = tp.protocol;\n"
  | .setSeqId n => "\t\tseqId = " ++ toString n ++ ";\n"

/-- An emitted publisher class: the scope name, the constructor body and the procedures.
The three fields `transport`, `protocol` and `seqId` are the same in every class. -/
structure PubClass where
  scopeName : String
  ctor : List CtorStmt
  procs : List PubProc
deriving DecidableEq, Repr

/-- The text of a publisher class. -/
def PubClass.render (c : PubClass) : String :=
  "class " ++ c.scopeName ++ "Publisher \x7b\n"
    ++ "\tfrugal.Transport transport;\n"
    ++ "\tthrift.TProtocol protocol;\n"
    ++ "\tint seqId;\n\n"
    ++ "\t" ++ c.scopeName ++ "Publisher(frugal.TransportFactory t, thrift.TTransportFactory f, "
    ++ "thrift.TProtocolFactory p) \x7b\n"
    ++ String.join (c.ctor.map CtorStmt.render)
    ++ "\t\x7d\n\n"
    ++ String.intercalate "\n\n" (c.procs.map PubProc.render)
    ++ "\x7d\n"

/-- The body of the procedure emitted for an operation, statement by statement
(lines 228-238). -/
def publishBody (G : Globals) (scope : Scope) (op : Operation) : List PubStmt :=
  [ .varStr "op" op.Name,
    .varStr "prefix" (generatePrefixStringTemplate G scope),
    .varStr "topic" ("$\x7bprefix\x7d" ++ scope.Name ++ "$\x7bdelimiter\x7d$\x7bop\x7d"),
    .preparePublish,
    .varOprot,
    .incSeqId,
    .newMsg .CALL,
    .writeMessageBegin,
    .writeReq,
    .writeMessageEnd,
    .returnFlush ]

/-- The procedure emitted for an operation (lines 227-239). -/
def publishProc (G : Globals) (scope : Scope) (op : Operation) : PubProc :=
  { name := "publish" ++ op.Name
    params := [("t_" ++ G.ToLower op.Param ++ "." ++ op.Param, "req")]
    body := publishBody G scope op }

/-- The publisher class emitted for a scope (lines 207-242). -/
def publisherClass (G : Globals) (scope : Scope) : PubClass :=
  { scopeName := scope.Name
    ctor := [.newProvider, .newTransportProtocol, .setTransport, .setProtocol, .setSeqId 0]
    procs := scope.Operations.map (publishProc G scope) }

/-! ## Dart string literals

The value of the text between the quotes of a Dart string literal, for the fragment the
generator emits: ordinary characters stand for themselves and `$` followed by a name in
braces stands for the value of that variable. A quote, a backslash or a `$` that does not
open a brace falls outside the fragment and has no value here. -/

/-- Where the reading of a literal stands: in ordinary text, just after a `$`, or inside
the braces of an interpolation with the characters of the name read so far (last first). -/
inductive InterpMode where
  | text
  | dollar
  | name (acc : List Char)
deriving DecidableEq, Repr

/-- The value of the characters of a literal, read from a mode on. -/
def dartInterp (quote : Char) (env : String → Option String) :
    InterpMode → List Char → Option (List Char)
  | .text, [] => some []
  | .dollar, [] => none
  | .name _, [] => none
  | .text, c :: cs =>
      if c = '$' then dartInterp quote env .dollar cs
      else if c = quote ∨ c = '\\' then none
      else (dartInterp quote env .text cs).map (fun r => c :: r)
  | .dollar, c :: cs =>
      if c = '\x7b' then dartInterp quote env (.name []) cs else none
  | .name acc, c :: cs =>
      if c = '\x7d' then
        match env (String.mk acc.reverse) with
        | none => none
        | some v => (dartInterp quote env .text cs).map (fun r => v.data ++ r)
      else dartInterp quote env (.name (c :: acc)) cs

/-- The value of the literal whose text between the quotes is `lit`. -/
def evalLit (quote : Char) (env : String → Option String) (lit : String) : Option String :=
  (dartInterp quote env .text lit.data).map String.mk

/-- A text none of whose characters is special in a Dart string literal. -/
def plainText (quote : Char) (s : String) : Prop :=
  ∀ c ∈ s.data, c ≠ '$' ∧ c ≠ quote ∧ c ≠ '\\'

instance (quote : Char) (s : String) : Decidable (plainText quote s) := by
  unfold plainText; exact inferInstance

/-- A top-level constant declaration `const String <name> = '<lit>';`. -/
structure ConstDecl where
  name : String
  lit : String
deriving DecidableEq, Repr

/-- The text of a constant declaration. -/
def ConstDecl.render (d : ConstDecl) : String :=
  "const String " ++ d.name ++ " = '" ++ d.lit ++ "';"

/-- The declaration emitted by `GenerateConstants`. -/
def delimiterDecl (G : Globals) : ConstDecl :=
  { name := "delimiter", lit := G.TopicDelimiter }

/-- The variables bound by a list of bindings, the first binding of a name winning. -/
def lookupVar (bindings : List (String × String)) (name : String) : Option String :=
  bindings.lookup name

/-- The top-level bindings a constant declaration gives, when its literal has a value. -/
def ConstDecl.bindings (d : ConstDecl) : Option (List (String × String)) :=
  (evalLit '\'' (fun _ => none) d.lit).map fun v => [(d.name, v)]

/-! ## Running an emitted publisher -/

/-- A message envelope (`thrift.TMessage`): name, type and sequence number. -/
structure Envelope where
  name : String
  type : TMessageType
  seqid : Nat
deriving DecidableEq, Repr

/-- What a publisher does to its transport and protocol, with `α` the type of payloads. -/
inductive Event (α : Type) where
  | preparePublish (topic : String)
  | writeMessageBegin (msg : Envelope)
  | writeBody (req : α)
  | writeMessageEnd
  | flush
deriving DecidableEq, Repr

/-- The state of a publisher instance during a call: the field `seqId`, the string locals
of the running procedure, the local `msg`, the events so far, and whether the procedure
has returned. -/
structure PubState (α : Type) where
  seqId : Nat
  locals : List (String × String)
  msg : Option Envelope
  trace : List (Event α)
  returned : Bool
deriving DecidableEq, Repr

/-- One statement of a publish procedure; `none` when the statement uses a name that has
no value. `top` holds the top-level constants and `req` is the argument of the call. -/
def PubStmt.exec {α : Type} (top : List (String × String)) (req : α) :
    PubStmt → PubState α → Option (PubState α)
  | .varStr name lit, st =>
      (evalLit '"' (lookupVar (st.locals ++ top)) lit).map fun v =>
        { st with locals := (name, v) :: st.locals }
  | .preparePublish, st =>
      (lookupVar st.locals "topic").map fun t =>
        { st with trace := st.trace ++ [Event.preparePublish t] }
  | .varOprot, st => some st
  | .incSeqId, st => some { st with seqId := st.seqId + 1 }
  | .newMsg tag, st =>
      (lookupVar st.locals "op").map fun o =>
        { st with msg := some { name := o, type := tag, seqid := st.seqId } }
  | .writeMessageBegin, st =>
      st.msg.map fun m => { st with trace := st.trace ++ [Event.writeMessageBegin m] }
  | .writeReq, st => some { st with trace := st.trace ++ [Event.writeBody req] }
  | .writeMessageEnd, st => some { st with trace := st.trace ++ [Event.writeMessageEnd] }
  | .returnFlush, st => some { st with trace := st.trace ++ [Event.flush], returned := true }

/-- A list of statements, in order, stopping at a return. -/
def runPub {α : Type} (top : List (String × String)) (req : α) :
    List PubStmt → PubState α → Option (PubState α)
  | [], st => some st
  | s :: rest, st =>
      if st.returned then some st
      else
        match s.exec top req st with
        | none => none
        | some st1 => runPub top req rest st1

/-- A publisher instance between calls: the field `seqId` and the events so far. -/
structure Publisher (α : Type) where
  seqId : Nat
  trace : List (Event α)
deriving DecidableEq, Repr

/-- The constructor of a publisher class: its statements in order. Only the assignment
to `seqId` touches the state kept here; the field has no value before it is assigned. -/
def PubClass.construct {α : Type} (c : PubClass) : Option (Publisher α) :=
  (c.ctor.foldl
    (fun (cur : Option Nat) s =>
      match s with
      | .setSeqId n => some n
      | _ => cur)
    none).map fun n => { seqId := n, trace := [] }

/-- A call of a publish procedure with argument `req` on an instance. -/
def PubProc.call {α : Type} (top : List (String × String)) (p : PubProc) (req : α)
    (inst : Publisher α) : Option (Publisher α) :=
  (runPub top req p.body
      { seqId := inst.seqId, locals := [], msg := none, trace := inst.trace, returned := false }).map
    fun st => { seqId := st.seqId, trace := st.trace }

/-- A sequence of calls on an instance, one request per operation, in order. -/
def publishAll {α : Type} (G : Globals) (scope : Scope) (top : List (String × String)) :
    List (Operation × α) → Publisher α → Option (Publisher α)
  | [], inst => some inst
  | (op, req) :: rest, inst =>
      match (publishProc G scope op).call top req inst with
      | none => none
      | some inst1 => publishAll G scope top rest inst1

/-- The envelopes written, in order. -/
def envelopes {α : Type} : List (Event α) → List Envelope
  | [] => []
  | Event.writeMessageBegin m :: rest => m :: envelopes rest
  | _ :: rest => envelopes rest

/-! ## The emitted subscriber, as syntax -/

/-- A statement of an emitted `subscribe<Op>` procedure. -/
inductive SubStmt where
  /-- The statement `var <name> = "<lit>";`. -/
  | varStr (name lit : String)
  /-- The statement `var tp = provider.newTransportProtocol();`. -/
  | newTransportProtocol
  /-- The statement `await tp.transport.subscribe(topic);`. -/
  | awaitSubscribe
  /-- The statement `tp.transport.signalRead.listen((_) { <callback>(<recv>(op, tp.protocol)); });`,
  emitted on three lines. -/
  | listen (callback recv : String)
  /-- The statement `return new frugal.Subscription(topic, tp.transport);`. -/
  | returnSubscription
deriving DecidableEq, Repr

/-- The text of a statement of a subscribe procedure. -/
def SubStmt.render : SubStmt → String
  | .varStr name lit => "\t\tvar " ++ name ++ " = \"" ++ lit ++ "\";\n"
  | .newTransportProtocol => "\t\tvar tp = provider.newTransportProtocol();\n"
  | .awaitSubscribe => "\t\tawait tp.transport.subscribe(topic);\n"
  | .listen callback recv =>
      "\t\ttp.transport.signalRead.listen((_) \x7b\n"
        ++ "\t\t\t" ++ callback ++ "(" ++ recv ++ "(op, tp.protocol));\n"
        ++ "\t\t\x7d);\n"
  | .returnSubscription => "\t\treturn new frugal.Subscription(topic, tp.transport);\n"

/-- An emitted procedure `subscribe<Op>`: its name, the name of its callback parameter,
the type of the callback's argument, and its body. -/
structure SubProc where
  name : String
  callback : String
  argType : String
  body : List SubStmt
deriving DecidableEq, Repr

/-- The text of a subscribe procedure. -/
def SubProc.render (p : SubProc) : String :=
  "\t" ++ p.name ++ "(dynamic " ++ p.callback ++ "(" ++ p.argType ++ " req)) async \x7b\n"
    ++ String.join (p.body.map SubStmt.render) ++ "\t\x7d\n"

/-- A statement of an emitted decode routine `_recv<Op>`, after the envelope header has
been read into `tMsg`. -/
inductive RecvStmt where
  /-- The statement `thrift.TProtocolUtil.skip(iprot, thrift.TType.STRUCT);`. -/
  | skipStruct
  /-- The statement `iprot.readMessageEnd();`. -/
  | readMessageEnd
  /-- The statement `throw new thrift.TApplicationError(UNKNOWN_METHOD, tMsg.name);`,
  emitted on two lines. -/
  | throwUnknownMethod
  /-- The statement `var req = new <type>();`. -/
  | newReq (type : String)
  /-- The statement `req.read(iprot);`. -/
  | readReq
  /-- The statement `return req;`. -/
  | returnReq
deriving DecidableEq, Repr

/-- The text of a statement of a decode routine at an indentation. -/
def RecvStmt.render (indent : String) : RecvStmt → String
  | .skipStruct => indent ++ "thrift.TProtocolUtil.skip(iprot, thrift.TType.STRUCT);\n"
  | .readMessageEnd => indent ++ "iprot.readMessageEnd();\n"
  | .throwUnknownMethod =>
      indent ++ "throw new thrift.TApplicationError(\n"
        ++ indent ++ "\tthrift.TApplicationErrorType.UNKNOWN_METHOD, tMsg.name);\n"
  | .newReq type => indent ++ "var req = new " ++ type ++ "();\n"
  | .readReq => indent ++ "req.read(iprot);\n"
  | .returnReq => indent ++ "return req;\n"

/-- An emitted decode routine: `<retType> <name>(String op, thrift.TProtocol iprot)`, whose
body reads the header into `tMsg`, runs `mismatch` when `tMsg.name != op`, then `rest`. -/
structure RecvProc where
  retType : String
  name : String
  mismatch : List RecvStmt
  rest : List RecvStmt
deriving DecidableEq, Repr

/-- The text of a decode routine. -/
def RecvProc.render (p : RecvProc) : String :=
  "\t" ++ p.retType ++ " " ++ p.name ++ "(String op, thrift.TProtocol iprot) \x7b\n"
    ++ "\t\tvar tMsg = iprot.readMessageBegin();\n"
    ++ "\t\tif (tMsg.name != op) \x7b\n"
    ++ String.join (p.mismatch.map (RecvStmt.render "\t\t\t"))
    ++ "\t\t\x7d\n"
    ++ String.join (p.rest.map (RecvStmt.render "\t\t"))
    ++ "\t\x7d\n"

/-- An emitted subscriber class: the scope name and, for each operation, its subscribe
procedure and its decode routine. -/
structure SubClass where
  scopeName : String
  members : List (SubProc × RecvProc)
deriving DecidableEq, Repr

/-- The text of a subscriber class. -/
def SubClass.render (c : SubClass) : String :=
  "class " ++ c.scopeName ++ "Subscriber \x7b\n"
    ++ "\tfrugal.Provider provider;\n\n"
    ++ "\t" ++ c.scopeName ++ "Subscriber(frugal.TransportFactory t, thrift.TTransportFactory f, "
    ++ "thrift.TProtocolFactory p) \x7b\n"
    ++ "\t\tprovider = new frugal.Provider(t, f, p);\n"
    ++ "\t\x7d\n\n"
    ++ String.intercalate "\n\n" (c.members.map fun m => m.1.render ++ "\n" ++ m.2.render)
    ++ "\x7d\n"

/-- The body of the subscribe procedure emitted for an operation (lines 282-290). -/
def subscribeBody (G : Globals) (scope : Scope) (op : Operation) : List SubStmt :=
  [ .varStr "op" op.Name,
    .varStr "prefix" (generatePrefixStringTemplate G scope),
    .varStr "topic" ("$\x7bprefix\x7d" ++ scope.Name ++ "$\x7bdelimiter\x7d$\x7bop\x7d"),
    .newTransportProtocol,
    .awaitSubscribe,
    .listen ("on" ++ op.Param) ("_recv" ++ op.Name),
    .returnSubscription ]

/-- The subscribe procedure emitted for an operation (lines 280-291). -/
def subscribeProc (G : Globals) (scope : Scope) (op : Operation) : SubProc :=
  { name := "subscribe" ++ op.Name
    callback := "on" ++ op.Param
    argType := "t_" ++ G.ToLower op.Param ++ "." ++ op.Param
    body := subscribeBody G scope op }

/-- The decode routine emitted for an operation (lines 293-306). -/
def recvProc (G : Globals) (op : Operation) : RecvProc :=
  { retType := "t_" ++ G.ToLower op.Param ++ "." ++ op.Param
    name := "_recv" ++ op.Name
    mismatch := [.skipStruct, .readMessageEnd, .throwUnknownMethod]
    rest := [.newReq ("t_" ++ G.ToLower op.Param ++ "." ++ op.Param), .readReq,
      .readMessageEnd, .returnReq] }

/-- The subscriber class emitted for a scope (lines 265-309). -/
def subscriberClass (G : Globals) (scope : Scope) : SubClass :=
  { scopeName := scope.Name
    members := scope.Operations.map fun op => (subscribeProc G scope op, recvProc G op) }

/-! ## Running an emitted subscriber -/

/-- The handle a subscribe procedure returns (`frugal.Subscription`): a topic and a
transport, transports being numbered in the order the provider hands them out. -/
structure Subscription where
  topic : String
  transport : Nat
deriving DecidableEq, Repr

/-- A dispatch handler registered on a transport: the callback it invokes, the decode
routine it decodes with and the value of `op` it passes to that routine. -/
structure Handler where
  transport : Nat
  callback : String
  recv : String
  op : String
deriving DecidableEq, Repr

/-- The state of a subscriber during a call of a subscribe procedure: the number of
transports the provider has handed out, the string locals, the local `tp`, the topics
bound so far, the handlers registered so far and the returned handle. -/
structure SubState where
  fresh : Nat
  locals : List (String × String)
  tp : Option Nat
  bound : List (Nat × String)
  handlers : List Handler
  result : Option Subscription
deriving DecidableEq, Repr

/-- One statement of a subscribe procedure; `none` when it uses a name without a value. -/
def SubStmt.exec (top : List (String × String)) : SubStmt → SubState → Option SubState
  | .varStr name lit, st =>
      (evalLit '"' (lookupVar (st.locals ++ top)) lit).map fun v =>
        { st with locals := (name, v) :: st.locals }
  | .newTransportProtocol, st => some { st with tp := some st.fresh, fresh := st.fresh + 1 }
  | .awaitSubscribe, st =>
      match st.tp, lookupVar st.locals "topic" with
      | some t, some topic => some { st with bound := st.bound ++ [(t, topic)] }
      | _, _ => none
  | .listen callback recv, st =>
      match st.tp, lookupVar st.locals "op" with
      | some t, some o =>
          some { st with handlers := st.handlers ++
            [{ transport := t, callback := callback, recv := recv, op := o }] }
      | _, _ => none
  | .returnSubscription, st =>
      match st.tp, lookupVar st.locals "topic" with
      | some t, some topic => some { st with result := some { topic := topic, transport := t } }
      | _, _ => none

/-- A list of statements of a subscribe procedure, in order, stopping at a return. -/
def runSub (top : List (String × String)) : List SubStmt → SubState → Option SubState
  | [], st => some st
  | s :: rest, st =>
      if st.result.isSome then some st
      else
        match s.exec top st with
        | none => none
        | some st1 => runSub top rest st1

/-- A call of a subscribe procedure on a subscriber whose provider has handed out
`fresh` transports. -/
def SubProc.call (top : List (String × String)) (p : SubProc) (fresh : Nat) : Option SubState :=
  runSub top p.body
    { fresh := fresh, locals := [], tp := none, bound := [], handlers := [], result := none }

/-- An inbound frame: the name in its envelope and the payload in its body. -/
structure Frame (α : Type) where
  name : String
  body : α
deriving DecidableEq, Repr

/-- What a decode routine does to its protocol. -/
inductive RecvEvent where
  | readMessageBegin
  | skipBody
  | readMessageEnd
  | allocate (type : String)
  | readBody
deriving DecidableEq, Repr

/-- How a decode routine ends: it returns a payload or raises the unknown-method error
(`thrift.TApplicationErrorType.UNKNOWN_METHOD`) with a message. -/
inductive Outcome (α : Type) where
  | returned (value : α)
  | unknownMethod (message : String)
deriving DecidableEq, Repr

/-- The state of a decode routine: the events so far, the local `req` and the outcome. -/
structure RecvState (α : Type) where
  trace : List RecvEvent
  req : Option α
  outcome : Option (Outcome α)
deriving DecidableEq, Repr

/-- One statement of a decode routine on a frame; `fresh` is the value of a newly
allocated payload, and a statement that uses `req` before it is declared gives `none`. -/
def RecvStmt.exec {α : Type} (fresh : α) (frame : Frame α) :
    RecvStmt → RecvState α → Option (RecvState α)
  | .skipStruct, st => some { st with trace := st.trace ++ [RecvEvent.skipBody] }
  | .readMessageEnd, st => some { st with trace := st.trace ++ [RecvEvent.readMessageEnd] }
  | .throwUnknownMethod, st => some { st with outcome := some (Outcome.unknownMethod frame.name) }
  | .newReq type, st =>
      some { st with req := some fresh, trace := st.trace ++ [RecvEvent.allocate type] }
  | .readReq, st =>
      st.req.map fun _ =>
        { st with req := some frame.body, trace := st.trace ++ [RecvEvent.readBody] }
  | .returnReq, st => st.req.map fun v => { st with outcome := some (Outcome.returned v) }

/-- A list of statements of a decode routine, in order, stopping at a return or a throw. -/
def runRecv {α : Type} (fresh : α) (frame : Frame α) :
    List RecvStmt → RecvState α → Option (RecvState α)
  | [], st => some st
  | s :: rest, st =>
      if st.outcome.isSome then some st
      else
        match s.exec fresh frame st with
        | none => none
        | some st1 => runRecv fresh frame rest st1

/-- A call `<name>(op, iprot)` of a decode routine on an inbound frame: the header is read,
the mismatch branch runs when the frame's name is not `op`, then the rest. -/
def RecvProc.call {α : Type} (p : RecvProc) (fresh : α) (op : String) (frame : Frame α) :
    Option (RecvState α) :=
  let st0 : RecvState α := { trace := [RecvEvent.readMessageBegin], req := none, outcome := none }
  if frame.name ≠ op then
    match runRecv fresh frame p.mismatch st0 with
    | none => none
    | some st1 => runRecv fresh frame p.rest st1
  else runRecv fresh frame p.rest st0

/-- Whether a statement of the constructor assigns the field `seqId`. -/
def CtorStmt.assignsSeqId : CtorStmt → Bool
  | .setSeqId _ => true
  | _ => false

/-- Whether a statement of a publish procedure changes the field `seqId`. -/
def PubStmt.changesSeqId : PubStmt → Bool
  | .incSeqId => true
  | _ => false

/-- A subscriber class whose dispatch handlers refer only to what the class defines: the
handler of each subscribe procedure invokes the callback that procedure takes as its
parameter and decodes with the routine emitted next to it. -/
def SubClass.wellScoped (c : SubClass) : Prop :=
  ∀ m ∈ c.members, ∀ callback recv,
    SubStmt.listen callback recv ∈ m.1.body → callback = m.1.callback ∧ recv = m.2.name

/-! ## Sample inputs -/

/-- Lower-casing of the ASCII letters, standing for `strings.ToLower` on sample inputs. -/
def asciiLower (s : String) : String :=
  String.mk (s.data.map Char.toLower)

/-- A template for sample inputs: every placeholder in braces of a prefix text becomes
`%s`; the flag tells whether the reading stands inside a placeholder. -/
def placeholdersToFormat : Bool → List Char → List Char
  | _, [] => []
  | false, c :: cs =>
      if c = '\x7b' then '%' :: 's' :: placeholdersToFormat true cs
      else c :: placeholdersToFormat false cs
  | true, c :: cs =>
      if c = '\x7d' then placeholdersToFormat false cs else placeholdersToFormat true cs

/-- Sample globals: the delimiter `.`, the file prefix `f_`, and the sample template. -/
def sampleGlobals : Globals :=
  { TopicDelimiter := "."
    Version := "1.0.0"
    FilePrefix := "f_"
    Template := fun p => String.mk (placeholdersToFormat false p.Str.data)
    ToLower := asciiLower }

/-- The operation `Ping` with parameter type `PingRequest`. -/
def pingOp : Operation := { Name := "Ping", Param := "PingRequest" }

/-- The operation `Pong` with parameter type `PongRequest`. -/
def pongOp : Operation := { Name := "Pong", Param := "PongRequest" }

/-- The scope `Events`, without prefix, with the operations `Ping` and `Pong`. -/
def eventsScope : Scope :=
  { Name := "Events", Prefix := { Str := "", Variables := [] }, Operations := [pingOp, pongOp] }

/-- The scope `Regional` with the prefix `region-{region}` over the variable `region`. -/
def regionalScope : Scope :=
  { Name := "Regional"
    Prefix := { Str := "region-\x7bregion\x7d", Variables := ["region"] }
    Operations := [pingOp] }

/-! ## The output layout, the manifest and the exports -/

/-- The function `strings.Split` for a separator of one character: the pieces of a text
between the separators, in order; a text without the separator is its only piece. -/
def splitChars (sep : Char) : List Char → List (List Char)
  | [] => [[]]
  | c :: cs =>
      if c = sep then [] :: splitChars sep cs
      else
        match splitChars sep cs with
        | [] => [[c]]
        | piece :: rest => (c :: piece) :: rest

/-- The function `getPackageComponents` (lines 30-32). -/
def getPackageComponents (pkg : String) : List String :=
  (splitChars '.' pkg.data).map String.mk

/-- The manifest descriptor: the struct `gitDep`. -/
structure gitDep where
  URL : String
deriving DecidableEq, Repr

/-- The manifest descriptor: the struct `dep`. -/
structure dep where
  Git : gitDep
deriving DecidableEq, Repr

/-- The manifest descriptor: the struct `deps`. -/
structure deps where
  Thrift : dep
  Frugal : dep
deriving DecidableEq, Repr

/-- The manifest descriptor: the struct `env`. -/
structure env where
  SDK : String
deriving DecidableEq, Repr

/-- The manifest descriptor: the struct `pubspec` (lines 58-64). -/
structure pubspec where
  Name : String
  Version : String
  Description : String
  Environment : env
  Dependencies : deps
deriving DecidableEq, Repr

/-- What the generator takes from libraries outside the repository besides `strings.ToLower`:
`filepath.Join` on a list of path elements, and `yaml.Marshal` on a manifest descriptor,
which gives the bytes of the manifest or fails with a message. -/
structure Libraries where
  Join : List String → String
  Marshal : pubspec → Except String (List UInt8)

/-- The method `GetOutputDir` (lines 34-42); `p.Namespaces[lang]` is the first binding of
`lang` in the association list. -/
def GetOutputDir (L : Libraries) (dir : String) (p : Program) : String :=
  match p.Namespaces.lookup lang with
  | some pkg =>
      let path := getPackageComponents pkg
      L.Join ([dir] ++ path)
  | none => L.Join [dir, p.Name]

/-- The method `DefaultOutputDir` (lines 44-46). -/
def DefaultOutputDir : String := defaultOutputDir

/-- The bytes of a text, `[]byte(s)`: its UTF-8 encoding. -/
def utf8 (s : String) : List UInt8 :=
  s.data.flatMap String.utf8EncodeChar

/-- The calls on files the generator makes. -/
inductive Syscall where
  | openFile
  | create
  | stat
  | write
deriving DecidableEq, Repr

/-- The errors the generator can return: a file that does not exist, another failure of a
call on a file, or a failure of the serialization of the manifest. -/
inductive FileError where
  | notExist (path : String)
  | failed (call : Syscall) (path : String)
  | marshal (message : String)
deriving DecidableEq, Repr

/-- The files: the contents of the files that exist, by path (the first binding of a path
counts), and the calls that fail for a reason other than a missing file. -/
structure FileSystem where
  files : List (String × List UInt8)
  fails : Syscall → String → Bool

/-- The contents of a file, when it exists. -/
def FileSystem.read (fs : FileSystem) (path : String) : Option (List UInt8) :=
  fs.files.lookup path

/-- The files with the contents of one path set. -/
def FileSystem.put (fs : FileSystem) (path : String) (content : List UInt8) : FileSystem :=
  { fs with files := (path, content) :: fs.files }

/-- The contents of a file after `data` has been written at the offset `off`: the bytes
before the offset stay, a gap past the end is filled with zeros, and the bytes after the
written ones stay. -/
def writeAt (old : List UInt8) (off : Nat) (data : List UInt8) : List UInt8 :=
  old.take off ++ List.replicate (off - old.length) 0 ++ data ++ old.drop (off + data.length)

/-- The call `os.OpenFile(path, syscall.O_RDWR, 0777)`: without `O_CREATE` it fails on a
path that does not exist. -/
def OpenFile (fs : FileSystem) (path : String) : Except FileError Unit :=
  if fs.fails .openFile path then .error (.failed .openFile path)
  else
    match fs.read path with
    | none => .error (.notExist path)
    | some _ => .ok ()

/-- The call `os.Create(path)`: the file is created, or truncated when it exists. -/
def Create (fs : FileSystem) (path : String) : Except FileError FileSystem :=
  if fs.fails .create path then .error (.failed .create path)
  else .ok (fs.put path [])

/-- The call `file.Stat()` followed by `Size()` on an open file. -/
def StatSize (fs : FileSystem) (path : String) : Except FileError Nat :=
  if fs.fails .stat path then .error (.failed .stat path)
  else
    match fs.read path with
    | none => .error (.notExist path)
    | some content => .ok content.length

/-- The call `file.WriteAt(data, off)` on an open file, with the error it returns. -/
def WriteAt (fs : FileSystem) (path : String) (data : List UInt8) (off : Nat) :
    Option FileError × FileSystem :=
  if fs.fails .write path then (some (.failed .write path), fs)
  else
    match fs.read path with
    | none => (some (.notExist path), fs)
    | some old => (none, fs.put path (writeAt old off data))

/-- The descriptor built by `addToPubspec` (lines 85-104). -/
def pubspecOf (G : Globals) (p : Program) : pubspec :=
  { Name := G.ToLower p.Name
    Version := "0.0.1"
    Description := "Autogenerated by the frugal compiler"
    Environment := { SDK := "^1.12.0" }
    Dependencies :=
      { Thrift := { Git := { URL := "git@github.com:Workiva/thrift-dart.git" } }
        Frugal := { Git := { URL := "git@github.com:Workiva/frugal-dart.git" } } } }

/-- The method `addToPubspec` (lines 83-120): the error it returns and the files
afterwards. When `os.Create` fails the method returns `nil` (lines 113-115); the write
into the new file starts at offset 0. -/
def addToPubspec (G : Globals) (L : Libraries) (fs : FileSystem) (p : Program)
    (dir : String) : Option FileError × FileSystem :=
  let pubFilePath := L.Join [dir, "pubspec.yaml"]
  let ps := pubspecOf G p
  match L.Marshal ps with
  | .error message => (some (.marshal message), fs)
  | .ok d =>
      match Create fs pubFilePath with
      | .error _ => (none, fs)
      | .ok fs1 => WriteAt fs1 pubFilePath d 0

/-- The text `exports` built by `exportClasses` (lines 131-135). -/
def exportsText (G : Globals) (p : Program) : String :=
  p.Scopes.foldl
    (fun exports scope =>
      exports ++ ("export 'src/" ++ G.FilePrefix ++ G.ToLower scope.Name ++ "." ++ lang
        ++ "' show " ++ scope.Name ++ "Publisher, " ++ scope.Name ++ "Subscriber;\n"))
    "\n"

/-- The path `mainFilePath` of `exportClasses` (lines 123-124). -/
def mainFilePath (G : Globals) (L : Libraries) (p : Program) (dir : String) : String :=
  let dartFile := G.ToLower p.Name ++ "." ++ lang
  L.Join [dir, "lib", dartFile]

/-- The method `exportClasses` (lines 122-142): the error it returns and the files
afterwards. -/
def exportClasses (G : Globals) (L : Libraries) (fs : FileSystem) (p : Program)
    (dir : String) : Option FileError × FileSystem :=
  let path := mainFilePath G L p dir
  match OpenFile fs path with
  | .error err => (some err, fs)
  | .ok _ =>
      let exports := exportsText G p
      match StatSize fs path with
      | .error err => (some err, fs)
      | .ok size => WriteAt fs path (utf8 exports) size

/-- The method `GenerateDependencies` (lines 48-56). -/
def GenerateDependencies (G : Globals) (L : Libraries) (fs : FileSystem) (p : Program)
    (dir : String) : Option FileError × FileSystem :=
  match addToPubspec G L fs p dir with
  | (some err, fs1) => (some err, fs1)
  | (none, fs1) =>
      match exportClasses G L fs1 p dir with
      | (some err, fs2) => (some err, fs2)
      | (none, fs2) => (none, fs2)

/-- The text written by `GeneratePackage` (lines 168-180), or `none` when the index
`len(components)-1` is out of range. -/
def GeneratePackage (G : Globals) (p : Program) (scope : Scope) : Option String :=
  let pkg : Option String :=
    match p.Namespaces.lookup lang with
    | some pkg =>
        let components := getPackageComponents pkg
        components.get? (components.length - 1)
    | none => some p.Name
  pkg.map fun pkg => "library " ++ pkg ++ ".src." ++ G.FilePrefix ++ G.ToLower scope.Name ++ ";"

/-- The keys of the map `params` of `GenerateImports` after its first loop (lines 186-191),
in the order they were inserted. -/
def importParams (scope : Scope) : List String :=
  scope.Operations.foldl
    (fun params op => if op.Param ∈ params then params else params ++ [op.Param])
    []

/-- How `range` goes over the keys of a map: `visit keys` is the order in which the keys
`keys` are visited. Go fixes no order, so every arrangement of the keys is possible, and
each key is visited once. -/
def mapRange (visit : List String → List String) : Prop :=
  ∀ keys, (visit keys).Perm keys

/-- The import line of a key of the map `params` (lines 193-194). -/
def importLine (G : Globals) (key : String) : String :=
  let lowerKey := G.ToLower key
  "import '" ++ lowerKey ++ ".dart' as t_" ++ lowerKey ++ ";\n"

/-- The text written by `GenerateImports` (lines 182-198) when `range` goes over the map
`params` as `visit` says. -/
def GenerateImports (G : Globals) (scope : Scope) (visit : List String → List String) :
    String :=
  let imports := "import 'dart:async';\n"
  let imports := imports ++ "import 'package:thrift/thrift.dart' as thrift;\n"
  let imports := imports ++ "import 'package:frugal/frugal.dart' as frugal;\n"
  let params := importParams scope
  (visit params).foldl (fun imports key => imports ++ importLine G key) imports

/-! ## Sample files and programs -/

/-- A sample of `filepath.Join` for elements that need no cleaning: the elements that are
not empty, separated by `/`. -/
def plainJoin (elems : List String) : String :=
  String.intercalate "/" (elems.filter fun e => e ≠ "")

/-- A sample of `yaml.Marshal`: the fields of the descriptor, one on a line. -/
def plainMarshal (ps : pubspec) : Except String (List UInt8) :=
  .ok (utf8 ("name: " ++ ps.Name ++ "\nversion: " ++ ps.Version
    ++ "\ndescription: " ++ ps.Description
    ++ "\nenvironment:\n  sdk: " ++ ps.Environment.SDK
    ++ "\ndependencies:\n  thrift:\n    git:\n      url: " ++ ps.Dependencies.Thrift.Git.URL
    ++ "\n  frugal:\n    git:\n      url: " ++ ps.Dependencies.Frugal.Git.URL ++ "\n"))

/-- Sample libraries. -/
def sampleLibraries : Libraries :=
  { Join := plainJoin, Marshal := plainMarshal }

/-- The program `Foo` with the scopes `Events` and `Regional` and no namespace. -/
def fooProgram : Program :=
  { Name := "Foo", Namespaces := [], Scopes := [eventsScope, regionalScope] }

/-- The program `Bar` with the namespace `com.example.bar` for the target `dart`. -/
def barProgram : Program :=
  { Name := "Bar", Namespaces := [("go", "bar"), ("dart", "com.example.bar")],
    Scopes := [eventsScope] }

/-- Files in which no call fails and the aggregate file of `Foo` holds one line. -/
def sampleFiles : FileSystem :=
  { files := [("out/lib/foo.dart", utf8 "library foo;\n")]
    fails := fun _ _ => false }

/-- Files in which no call fails and nothing exists. -/
def emptyFiles : FileSystem :=
  { files := [], fails := fun _ _ => false }

/-- Files in which the aggregate file of `Foo` exists and `os.Create` fails on every path,
as in a directory that cannot be written. -/
def readOnlyFiles : FileSystem :=
  { files := [("out/lib/foo.dart", utf8 "library foo;\n")]
    fails := fun call _ => call = Syscall.create }

/-! ## Texts -/

theorem join_nil : String.join [] = "" := rfl

theorem join_cons (s : String) (l : List String) :
    String.join (s :: l) = s ++ String.join l := by
  apply String.ext; simp

theorem appendAll_eq (s : String) (l : List String) : appendAll s l = s ++ String.join l := by
  induction l generalizing s with
  | nil => simp [appendAll, String.join]
  | cons x xs ih =>
    have hstep : appendAll s (x :: xs) = appendAll (s ++ x) xs := rfl
    rw [hstep, ih, join_cons, String.append_assoc]

theorem intercalate_go (sep : String) (l : List String) (acc : String) :
    String.intercalate.go acc sep l = acc ++ String.join (l.map fun y => sep ++ y) := by
  induction l generalizing acc with
  | nil => simp [String.intercalate.go, join_nil]
  | cons x xs ih =>
    simp only [String.intercalate.go, ih, List.map, join_cons, String.append_assoc]

theorem intercalate_cons (sep x : String) (xs : List String) :
    String.intercalate sep (x :: xs) = x ++ String.join (xs.map fun y => sep ++ y) := by
  simp only [String.intercalate, intercalate_go]

/-- The text built by a loop that appends a separator and then `f x` for each `x`, the
separator being `s0` before the first element and `s` afterwards. -/
theorem loop_sep {α : Type} (f : α → String) (s : String) (l : List α) (acc s0 : String) :
    (l.foldl (fun (st : String × String) x => (st.1 ++ st.2 ++ f x, s)) (acc, s0)).1
      = match l with
        | [] => acc
        | x :: xs => acc ++ s0 ++ f x ++ String.join (xs.map fun y => s ++ f y) := by
  induction l generalizing acc s0 with
  | nil => rfl
  | cons x xs ih =>
    simp only [List.foldl_cons]
    rw [ih]
    cases xs with
    | nil => simp [join_nil]
    | cons y ys => simp only [List.map, join_cons, String.append_assoc]

theorem loop_intercalate {α : Type} (f : α → String) (s : String) (l : List α) (acc : String) :
    (l.foldl (fun (st : String × String) x => (st.1 ++ st.2 ++ f x, s)) (acc, "")).1
      = acc ++ String.intercalate s (l.map f) := by
  rw [loop_sep]
  cases l with
  | nil => simp [String.intercalate]
  | cons x xs =>
    simp only [List.map, intercalate_cons, String.append_assoc, String.empty_append,
      List.map_map]
    rfl

theorem toString_zero : toString (0 : Nat) = "0" := by decide

/-! ## The emitted text is the text of the syntax -/

theorem publishPieces_render (G : Globals) (scope : Scope) (op : Operation) :
    String.join (publishPieces G scope op) = (publishProc G scope op).render := by
  apply String.ext
  simp only [publishPieces, publishProc, PubProc.render, publishBody, PubStmt.render,
    renderParams, String.intercalate, String.intercalate.go, TMessageType.dartName, List.map,
    join_cons, join_nil, String.data_append, List.append_assoc]
  rfl

theorem publisher_text (G : Globals) (scope : Scope) :
    GeneratePublisher G scope
      = String.join (publisherHeadPieces scope)
        ++ String.intercalate "\n\n"
            (scope.Operations.map fun op => String.join (publishPieces G scope op))
        ++ "\x7d\n" := by
  have hbody : (fun (st : String × String) op =>
      (appendAll (st.1 ++ st.2) (publishPieces G scope op), "\n\n"))
      = (fun (st : String × String) op =>
          (st.1 ++ st.2 ++ String.join (publishPieces G scope op), "\n\n")) := by
    funext st op
    rw [appendAll_eq]
  unfold GeneratePublisher
  simp only [hbody]
  rw [loop_intercalate, appendAll_eq, String.empty_append]

theorem GeneratePublisher_render (G : Globals) (scope : Scope) :
    GeneratePublisher G scope = (publisherClass G scope).render := by
  have hm : List.map PubProc.render (List.map (publishProc G scope) scope.Operations)
      = List.map (fun op => String.join (publishPieces G scope op)) scope.Operations := by
    rw [List.map_map]
    apply List.map_congr_left
    intro op _
    exact (publishPieces_render G scope op).symm
  rw [publisher_text]
  simp only [publisherClass, PubClass.render, hm]
  generalize String.intercalate "\n\n"
    (List.map (fun op => String.join (publishPieces G scope op)) scope.Operations) = body
  apply String.ext
  simp only [publisherHeadPieces, CtorStmt.render, List.map, join_cons, join_nil,
    String.data_append, List.append_assoc, toString_zero]
  rfl

theorem subscribePieces_render (G : Globals) (scope : Scope) (op : Operation) :
    String.join (subscribePieces G scope op) = (subscribeProc G scope op).render ++ "\n" := by
  apply String.ext
  simp only [subscribePieces, subscribeProc, SubProc.render, subscribeBody, SubStmt.render,
    List.map, join_cons, join_nil, String.data_append, List.append_assoc]
  rfl

theorem recvPieces_render (G : Globals) (op : Operation) :
    String.join (recvPieces G op) = (recvProc G op).render := by
  apply String.ext
  simp only [recvPieces, recvProc, RecvProc.render, RecvStmt.render, List.map, join_cons,
    join_nil, String.data_append, List.append_assoc]
  rfl

theorem join_append (l1 l2 : List String) :
    String.join (l1 ++ l2) = String.join l1 ++ String.join l2 := by
  apply String.ext; simp

theorem subscriber_text (G : Globals) (scope : Scope) :
    GenerateSubscriber G scope
      = String.join (subscriberHeadPieces scope)
        ++ String.intercalate "\n\n"
            (scope.Operations.map fun op =>
              String.join (subscribePieces G scope op) ++ String.join (recvPieces G op))
        ++ "\x7d\n" := by
  have hbody : (fun (st : String × String) op =>
      (appendAll (st.1 ++ st.2) (subscribePieces G scope op ++ recvPieces G op), "\n\n"))
      = (fun (st : String × String) op =>
          (st.1 ++ st.2
            ++ (String.join (subscribePieces G scope op) ++ String.join (recvPieces G op)),
           "\n\n")) := by
    funext st op
    rw [appendAll_eq, join_append]
  unfold GenerateSubscriber
  simp only [hbody]
  rw [loop_intercalate, appendAll_eq, String.empty_append]

theorem GenerateSubscriber_render (G : Globals) (scope : Scope) :
    GenerateSubscriber G scope = (subscriberClass G scope).render := by
  have hm : List.map (fun (m : SubProc × RecvProc) => m.1.render ++ "\n" ++ m.2.render)
        (List.map (fun op => (subscribeProc G scope op, recvProc G op)) scope.Operations)
      = List.map (fun op =>
          String.join (subscribePieces G scope op) ++ String.join (recvPieces G op))
          scope.Operations := by
    rw [List.map_map]
    apply List.map_congr_left
    intro op _
    simp only [Function.comp, subscribePieces_render, recvPieces_render]
  rw [subscriber_text]
  simp only [subscriberClass, SubClass.render, hm]
  generalize String.intercalate "\n\n"
    (List.map (fun op =>
      String.join (subscribePieces G scope op) ++ String.join (recvPieces G op))
      scope.Operations) = body
  apply String.ext
  simp only [subscriberHeadPieces, List.map, join_cons, join_nil, String.data_append,
    List.append_assoc]
  rfl

/-! ## Values of literals -/

theorem interp_plain (q : Char) (env : String → Option String) (l rest : List Char)
    (h : ∀ c ∈ l, c ≠ '$' ∧ c ≠ q ∧ c ≠ '\\') :
    dartInterp q env .text (l ++ rest)
      = (dartInterp q env .text rest).map (fun r => l ++ r) := by
  induction l with
  | nil => simp
  | cons c cs ih =>
    have hc := h c (List.mem_cons_self _ _)
    have ih := ih (fun d hd => h d (List.mem_cons_of_mem _ hd))
    simp [dartInterp, hc.1, hc.2.1, hc.2.2, ih, Function.comp_def]

theorem evalLit_plain (q : Char) (env : String → Option String) (s : String)
    (h : plainText q s) : evalLit q env s = some s := by
  have hl := interp_plain q env s.data [] h
  simp only [List.append_nil] at hl
  simp [evalLit, hl, dartInterp]

theorem evalLit_empty (q : Char) (env : String → Option String) :
    evalLit q env "" = some "" := by
  simp [evalLit, dartInterp]

/-- The value of the topic literal once `prefix`, `delimiter` and `op` have values. -/
theorem evalLit_topic (env : String → Option String) (s p d o : String)
    (h : plainText '"' s) (hp : env "prefix" = some p) (hd : env "delimiter" = some d)
    (ho : env "op" = some o) :
    evalLit '"' env ("$\x7bprefix\x7d" ++ s ++ "$\x7bdelimiter\x7d$\x7bop\x7d")
      = some (p ++ s ++ d ++ o) := by
  unfold evalLit
  have e : ("$\x7bprefix\x7d" ++ s ++ "$\x7bdelimiter\x7d$\x7bop\x7d").data
      = '$' :: '\x7b' :: 'p' :: 'r' :: 'e' :: 'f' :: 'i' :: 'x' :: '\x7d' ::
          (s.data ++ ['$', '\x7b', 'd', 'e', 'l', 'i', 'm', 'i', 't', 'e', 'r', '\x7d',
            '$', '\x7b', 'o', 'p', '\x7d']) := by
    simp only [String.data_append, List.append_assoc]; rfl
  rw [e]
  simp [dartInterp, interp_plain _ _ _ _ h, hp, hd, ho]
  apply String.ext
  simp

theorem prefix_empty (G : Globals) (scope : Scope) (hv : scope.Prefix.Variables = []) :
    generatePrefixStringTemplate G scope = "" := by
  simp [generatePrefixStringTemplate, hv]

theorem delimiter_bindings (G : Globals) (hd : plainText '\'' G.TopicDelimiter) :
    (delimiterDecl G).bindings = some [("delimiter", G.TopicDelimiter)] := by
  simp [ConstDecl.bindings, delimiterDecl, evalLit_plain _ _ _ hd]

/-! ## Calls of the emitted procedures -/

/-- A call of an emitted publish procedure, for a scope without prefix variables. -/
theorem publish_call {α : Type} (G : Globals) (scope : Scope) (op : Operation) (req : α)
    (inst : Publisher α) (hv : scope.Prefix.Variables = [])
    (hs : plainText '"' scope.Name) (ho : plainText '"' op.Name) :
    (publishProc G scope op).call [("delimiter", G.TopicDelimiter)] req inst
      = some { seqId := inst.seqId + 1,
               trace := inst.trace ++
                 [ Event.preparePublish (scope.Name ++ G.TopicDelimiter ++ op.Name),
                   Event.writeMessageBegin
                     { name := op.Name, type := .CALL, seqid := inst.seqId + 1 },
                   Event.writeBody req, Event.writeMessageEnd, Event.flush ] } := by
  have ht := evalLit_topic
    (lookupVar [("prefix", ""), ("op", op.Name), ("delimiter", G.TopicDelimiter)])
    scope.Name "" G.TopicDelimiter op.Name hs (by simp [lookupVar, List.lookup])
    (by simp [lookupVar, List.lookup]) (by simp [lookupVar, List.lookup])
  simp only [String.empty_append] at ht
  simp [PubProc.call, publishProc, publishBody, runPub, PubStmt.exec, prefix_empty G scope hv,
    evalLit_plain _ _ _ ho, evalLit_empty, ht, lookupVar, List.lookup]

/-- A call of an emitted subscribe procedure, for a scope without prefix variables. -/
theorem subscribe_call (G : Globals) (scope : Scope) (op : Operation) (fresh : Nat)
    (hv : scope.Prefix.Variables = [])
    (hs : plainText '"' scope.Name) (ho : plainText '"' op.Name) :
    (subscribeProc G scope op).call [("delimiter", G.TopicDelimiter)] fresh
      = some { fresh := fresh + 1,
               locals := [("topic", scope.Name ++ G.TopicDelimiter ++ op.Name),
                 ("prefix", ""), ("op", op.Name)],
               tp := some fresh,
               bound := [(fresh, scope.Name ++ G.TopicDelimiter ++ op.Name)],
               handlers := [{ transport := fresh, callback := "on" ++ op.Param,
                              recv := "_recv" ++ op.Name, op := op.Name }],
               result := some { topic := scope.Name ++ G.TopicDelimiter ++ op.Name,
                                transport := fresh } } := by
  have ht := evalLit_topic
    (lookupVar [("prefix", ""), ("op", op.Name), ("delimiter", G.TopicDelimiter)])
    scope.Name "" G.TopicDelimiter op.Name hs (by simp [lookupVar, List.lookup])
    (by simp [lookupVar, List.lookup]) (by simp [lookupVar, List.lookup])
  simp only [String.empty_append] at ht
  simp [SubProc.call, subscribeProc, subscribeBody, runSub, SubStmt.exec,
    prefix_empty G scope hv, evalLit_plain _ _ _ ho, evalLit_empty, ht, lookupVar, List.lookup]

/-! ## The topic -/

/-- C1: for a scope whose prefix has no variables and any operation,
`generatePrefixStringTemplate` returns the empty string; the statements that define `op`,
`prefix` and `topic` in `publish<Op>` and in `subscribe<Op>` are the ones shown, with an
empty `prefix` literal; and with the delimiter constant of `GenerateConstants` in scope the
topic the publisher prepares and the topic the subscriber binds are both exactly
`scope.Name ++ TopicDelimiter ++ op.Name`. The names are taken free of the characters
that are special in a Dart literal, as identifiers are. -/
theorem topic_without_prefix_variables {α : Type} (G : Globals) (scope : Scope)
    (op : Operation) (req : α) (inst : Publisher α) (fresh : Nat)
    (hv : scope.Prefix.Variables = [])
    (hs : plainText '"' scope.Name) (ho : plainText '"' op.Name)
    (hd : plainText '\'' G.TopicDelimiter) :
    generatePrefixStringTemplate G scope = ""
    ∧ ((publishPieces G scope op).drop 1).take 3
        = [ "\t\tvar op = \"" ++ op.Name ++ "\";\n",
            "\t\tvar prefix = \"\";\n",
            "\t\tvar topic = \"$\x7bprefix\x7d" ++ scope.Name
              ++ "$\x7bdelimiter\x7d$\x7bop\x7d\";\n" ]
    ∧ ((subscribePieces G scope op).drop 1).take 3
        = [ "\t\tvar op = \"" ++ op.Name ++ "\";\n",
            "\t\tvar prefix = \"\";\n",
            "\t\tvar topic = \"$\x7bprefix\x7d" ++ scope.Name
              ++ "$\x7bdelimiter\x7d$\x7bop\x7d\";\n" ]
    ∧ String.join (publishPieces G scope op) = (publishProc G scope op).render
    ∧ String.join (subscribePieces G scope op) = (subscribeProc G scope op).render ++ "\n"
    ∧ (delimiterDecl G).bindings = some [("delimiter", G.TopicDelimiter)]
    ∧ ((publishProc G scope op).call [("delimiter", G.TopicDelimiter)] req inst).map
          (fun p => p.trace)
        = some (inst.trace ++
            [ Event.preparePublish (scope.Name ++ G.TopicDelimiter ++ op.Name),
              Event.writeMessageBegin
                { name := op.Name, type := .CALL, seqid := inst.seqId + 1 },
              Event.writeBody req, Event.writeMessageEnd, Event.flush ])
    ∧ ((subscribeProc G scope op).call [("delimiter", G.TopicDelimiter)] fresh).map
          (fun st => st.bound)
        = some [(fresh, scope.Name ++ G.TopicDelimiter ++ op.Name)] := by
  have hp := prefix_empty G scope hv
  refine ⟨hp, ?_, ?_, publishPieces_render G scope op, subscribePieces_render G scope op,
    delimiter_bindings G hd, ?_, ?_⟩
  · simp [publishPieces, hp]
  · simp [subscribePieces, hp]
  · rw [publish_call G scope op req inst hv hs ho]
    simp
  · rw [subscribe_call G scope op fresh hv hs ho]
    simp

theorem topic_without_prefix_variables_witness :
    eventsScope.Prefix.Variables = []
    ∧ plainText '"' eventsScope.Name ∧ plainText '"' pingOp.Name
    ∧ plainText '\'' sampleGlobals.TopicDelimiter
    ∧ generatePrefixStringTemplate sampleGlobals eventsScope = ""
    ∧ ((subscribeProc sampleGlobals eventsScope pingOp).call
          [("delimiter", sampleGlobals.TopicDelimiter)] 0).map (fun st => st.bound)
        = some [(0, "Events.Ping")] :=
  have h := topic_without_prefix_variables sampleGlobals eventsScope pingOp (7 : Nat)
    { seqId := 0, trace := [] } 0 (by decide) (by decide) (by decide) (by decide)
  ⟨by decide, by decide, by decide, by decide, h.1, h.2.2.2.2.2.2.2⟩

/-- C2: for every scope and operation the statements that define `op`, `prefix` and
`topic` in `publish<Op>` are, character for character, those in `subscribe<Op>`; the topic
statement of both refers to the constant `delimiter`, which is the one constant
`GenerateConstants` declares; and under any top-level bindings the two procedures give
these three variables the same values. -/
theorem publisher_subscriber_agree {α : Type} (G : Globals) (scope : Scope) (op : Operation)
    (name : String) (top : List (String × String)) (req : α) (inst : Publisher α)
    (fresh : Nat) :
    ((publishPieces G scope op).drop 1).take 3 = ((subscribePieces G scope op).drop 1).take 3
    ∧ (publishPieces G scope op).get? 3
        = some ("\t\tvar topic = \"$\x7bprefix\x7d" ++ scope.Name
            ++ "$\x7bdelimiter\x7d$\x7bop\x7d\";\n")
    ∧ (subscribePieces G scope op).get? 3
        = some ("\t\tvar topic = \"$\x7bprefix\x7d" ++ scope.Name
            ++ "$\x7bdelimiter\x7d$\x7bop\x7d\";\n")
    ∧ GenerateConstants G name = "const String delimiter = '" ++ G.TopicDelimiter ++ "';"
    ∧ GenerateConstants G name = (delimiterDecl G).render
    ∧ (runPub top req ((publishBody G scope op).take 3)
          { seqId := inst.seqId, locals := [], msg := none, trace := inst.trace,
            returned := false }).map (fun st => st.locals)
        = (runSub top ((subscribeBody G scope op).take 3)
          { fresh := fresh, locals := [], tp := none, bound := [], handlers := [],
            result := none }).map (fun st => st.locals) := by
  refine ⟨by simp [publishPieces, subscribePieces], by simp [publishPieces],
    by simp [subscribePieces], rfl, ?_, ?_⟩
  · apply String.ext
    simp only [GenerateConstants, delimiterDecl, ConstDecl.render, String.data_append,
      List.append_assoc]
    rfl
  · simp only [publishBody, subscribeBody, List.take, runPub, runSub, PubStmt.exec,
      SubStmt.exec]
    cases h1 : evalLit '"' (lookupVar ([] ++ top)) op.Name with
    | none => simp
    | some v1 =>
      simp only [Option.map_some']
      cases h2 : evalLit '"' (lookupVar ([("op", v1)] ++ top))
          (generatePrefixStringTemplate G scope) with
      | none => simp
      | some v2 =>
        simp only [Option.map_some']
        cases h3 : evalLit '"' (lookupVar ([("prefix", v2), ("op", v1)] ++ top))
            ("$\x7bprefix\x7d" ++ scope.Name ++ "$\x7bdelimiter\x7d$\x7bop\x7d") with
        | none => simp
        | some v3 => simp

/-- C3: for a scope whose prefix has at least one variable, the expression returned by
`generatePrefixStringTemplate` is `fmt.Sprintf("` followed by the prefix template, the
delimiter, `", `, the declared variables in declaration order separated by `, `, and `)`. -/
theorem prefix_expression_lists_variables (G : Globals) (scope : Scope)
    (h : scope.Prefix.Variables ≠ []) :
    generatePrefixStringTemplate G scope
      = "fmt.Sprintf(\"" ++ G.Template scope.Prefix ++ G.TopicDelimiter ++ "\", "
        ++ String.intercalate ", " scope.Prefix.Variables ++ ")" := by
  have hbody : (fun (st : String × String) (v : String) => (st.1 ++ (st.2 ++ v), ", "))
      = (fun (st : String × String) (v : String) => (st.1 ++ st.2 ++ id v, ", ")) := by
    funext st v
    simp [String.append_assoc]
  have hl : scope.Prefix.Variables.length ≠ 0 := by
    simpa [List.length_eq_zero] using h
  unfold generatePrefixStringTemplate
  simp only [hl, if_false, hbody]
  rw [loop_intercalate, List.map_id]
  simp only [String.append_assoc]

theorem prefix_expression_lists_variables_witness :
    regionalScope.Prefix.Variables ≠ []
    ∧ generatePrefixStringTemplate sampleGlobals regionalScope
        = "fmt.Sprintf(\"region-%s.\", region)" :=
  ⟨by decide, prefix_expression_lists_variables sampleGlobals regionalScope (by decide)⟩

/-! ## The publish procedure -/

/-- The events of one call of an emitted publish procedure, for any scope: the call
succeeds exactly when the three literals have values. -/
theorem publish_call_eq {α : Type} (G : Globals) (scope : Scope) (op : Operation)
    (top : List (String × String)) (req : α) (inst : Publisher α) :
    (publishProc G scope op).call top req inst
      = (evalLit '"' (lookupVar top) op.Name).bind fun o =>
        (evalLit '"' (lookupVar (("op", o) :: top)) (generatePrefixStringTemplate G scope)).bind
          fun p =>
        (evalLit '"' (lookupVar (("prefix", p) :: ("op", o) :: top))
          ("$\x7bprefix\x7d" ++ scope.Name ++ "$\x7bdelimiter\x7d$\x7bop\x7d")).map fun t =>
          { seqId := inst.seqId + 1,
            trace := inst.trace ++
              [ Event.preparePublish t,
                Event.writeMessageBegin { name := o, type := .CALL, seqid := inst.seqId + 1 },
                Event.writeBody req, Event.writeMessageEnd, Event.flush ] } := by
  simp only [PubProc.call, publishProc, publishBody, runPub, PubStmt.exec, List.nil_append,
    List.cons_append]
  cases h1 : evalLit '"' (lookupVar top) op.Name with
  | none => simp
  | some v1 =>
    cases h2 : evalLit '"' (lookupVar (("op", v1) :: top))
        (generatePrefixStringTemplate G scope) with
    | none => simp [h2]
    | some v2 =>
      cases h3 : evalLit '"' (lookupVar (("prefix", v2) :: ("op", v1) :: top))
          ("$\x7bprefix\x7d" ++ scope.Name ++ "$\x7bdelimiter\x7d$\x7bop\x7d") with
      | none => simp [h2, h3]
      | some v3 => simp [h2, h3, lookupVar, List.lookup]

/-- A call that succeeds adds five events, the envelope carrying the incremented counter. -/
theorem publish_call_some {α : Type} (G : Globals) (scope : Scope) (op : Operation)
    (top : List (String × String)) (req : α) (inst inst1 : Publisher α)
    (h : (publishProc G scope op).call top req inst = some inst1) :
    ∃ topic name, evalLit '"' (lookupVar top) op.Name = some name
      ∧ inst1 = Publisher.mk (inst.seqId + 1)
        (inst.trace ++
          [ Event.preparePublish topic,
            Event.writeMessageBegin (Envelope.mk name .CALL (inst.seqId + 1)),
            Event.writeBody req, Event.writeMessageEnd, Event.flush ]) := by
  rw [publish_call_eq] at h
  cases h1 : evalLit '"' (lookupVar top) op.Name with
  | none => simp [h1] at h
  | some v1 =>
    cases h2 : evalLit '"' (lookupVar (("op", v1) :: top))
        (generatePrefixStringTemplate G scope) with
    | none => simp [h1, h2] at h
    | some v2 =>
      cases h3 : evalLit '"' (lookupVar (("prefix", v2) :: ("op", v1) :: top))
          ("$\x7bprefix\x7d" ++ scope.Name ++ "$\x7bdelimiter\x7d$\x7bop\x7d") with
      | none => simp [h1, h2, h3] at h
      | some v3 =>
        simp [h1, h2, h3] at h
        exact ⟨v3, v1, rfl, h.symm⟩

theorem envelopes_append {α : Type} (l1 l2 : List (Event α)) :
    envelopes (l1 ++ l2) = envelopes l1 ++ envelopes l2 := by
  induction l1 with
  | nil => rfl
  | cons e es ih => cases e <;> simp [envelopes, ih]

theorem publishAll_some {α : Type} (G : Globals) (scope : Scope)
    (top : List (String × String)) (calls : List (Operation × α)) :
    ∀ (inst inst1 : Publisher α), publishAll G scope top calls inst = some inst1 →
      inst1.seqId = inst.seqId + calls.length
      ∧ (envelopes inst1.trace).map (fun m => m.seqid)
          = (envelopes inst.trace).map (fun m => m.seqid)
            ++ List.range' (inst.seqId + 1) calls.length := by
  induction calls with
  | nil =>
    intro inst inst1 h
    simp only [publishAll, Option.some.injEq] at h
    subst h
    simp
  | cons c cs ih =>
    intro inst inst1 h
    obtain ⟨op, req⟩ := c
    simp only [publishAll] at h
    cases hc : (publishProc G scope op).call top req inst with
    | none => simp [hc] at h
    | some mid =>
      simp only [hc] at h
      obtain ⟨topic, name, _, hmid⟩ := publish_call_some G scope op top req inst mid hc
      obtain ⟨h1, h2⟩ := ih mid inst1 h
      subst hmid
      simp only at h1 h2
      refine ⟨by simp [h1]; omega, ?_⟩
      rw [h2]
      simp [envelopes_append, envelopes, List.range'_succ]

theorem publishAll_total {α : Type} (G : Globals) (scope : Scope)
    (calls : List (Operation × α)) (hv : scope.Prefix.Variables = [])
    (hs : plainText '"' scope.Name) (ho : ∀ c ∈ calls, plainText '"' c.1.Name) :
    ∀ inst : Publisher α,
      ∃ inst1, publishAll G scope [("delimiter", G.TopicDelimiter)] calls inst = some inst1 := by
  induction calls with
  | nil => intro inst; exact ⟨inst, rfl⟩
  | cons c cs ih =>
    intro inst
    obtain ⟨op, req⟩ := c
    have hop := ho (op, req) (List.mem_cons_self _ _)
    simp only [publishAll, publish_call G scope op req inst hv hs hop]
    exact ih (fun d hd => ho d (List.mem_cons_of_mem _ hd)) _

/-- The events of one call of an emitted decode routine. -/
theorem recv_call_eq {α : Type} (G : Globals) (op : Operation) (fresh : α) (expected : String)
    (frame : Frame α) :
    (recvProc G op).call fresh expected frame
      = if frame.name ≠ expected then
          some { trace := [RecvEvent.readMessageBegin, RecvEvent.skipBody,
                   RecvEvent.readMessageEnd],
                 req := none,
                 outcome := some (Outcome.unknownMethod frame.name) }
        else
          some { trace := [RecvEvent.readMessageBegin,
                   RecvEvent.allocate ("t_" ++ G.ToLower op.Param ++ "." ++ op.Param),
                   RecvEvent.readBody, RecvEvent.readMessageEnd],
                 req := some frame.body,
                 outcome := some (Outcome.returned frame.body) } := by
  by_cases h : frame.name = expected <;>
    simp [RecvProc.call, recvProc, runRecv, RecvStmt.exec, h]

/-- C4: on the scope `Regional` with prefix `region-{region}` over the variable `region`,
the emitted `publishPing` and `subscribePing` take the request (or the callback) as their
only parameter, no parameter stands for `region`, the `prefix` statement holds a Go
`fmt.Sprintf` call inside a Dart string literal, and neither procedure computes a topic. -/
theorem publish_ignores_prefix_variables :
    regionalScope.Prefix.Variables = ["region"]
    ∧ (publishPieces sampleGlobals regionalScope pingOp).head?
        = some "\tpublishPing(t_pingrequest.PingRequest req) \x7b\n"
    ∧ (subscribePieces sampleGlobals regionalScope pingOp).head?
        = some
          "\tsubscribePing(dynamic onPingRequest(t_pingrequest.PingRequest req)) async \x7b\n"
    ∧ (publishProc sampleGlobals regionalScope pingOp).params
        = [("t_pingrequest.PingRequest", "req")]
    ∧ (publishPieces sampleGlobals regionalScope pingOp).get? 2
        = some "\t\tvar prefix = \"fmt.Sprintf(\"region-%s.\", region)\";\n"
    ∧ (subscribePieces sampleGlobals regionalScope pingOp).get? 2
        = some "\t\tvar prefix = \"fmt.Sprintf(\"region-%s.\", region)\";\n"
    ∧ (publishProc sampleGlobals regionalScope pingOp).call [("delimiter", ".")] (7 : Nat)
        { seqId := 0, trace := [] } = none
    ∧ (subscribeProc sampleGlobals regionalScope pingOp).call [("delimiter", ".")] 0 = none := by
  decide

/-! ## The decode routine -/

/-- C5: for every operation of every scope the text of `_recv<Op>` is the text of the
routine `recvProc`, which is the decode routine of that operation in the class emitted by
`GenerateSubscriber`; its mismatch branch is skip, trailer, throw, and the allocation and
the read of the payload come after it. Called on a frame whose name differs from the
expected one it skips the body, reads the trailer and raises the unknown-method error with
the frame's name, without allocating or reading a payload; on a frame with the expected
name it allocates a value of the parameter type, reads the body, reads the trailer and
returns the value read. -/
theorem recv_mismatch_raises_unknown_method {α : Type} (G : Globals) (scope : Scope)
    (op : Operation) (fresh : α) (expected : String) (frame : Frame α) :
    String.join (recvPieces G op) = (recvProc G op).render
    ∧ GenerateSubscriber G scope = (subscriberClass G scope).render
    ∧ (subscriberClass G scope).members.map (fun m => m.2) = scope.Operations.map (recvProc G)
    ∧ (recvPieces G op).drop 2
        = [ "\t\tif (tMsg.name != op) \x7b\n",
            "\t\t\tthrift.TProtocolUtil.skip(iprot, thrift.TType.STRUCT);\n",
            "\t\t\tiprot.readMessageEnd();\n",
            "\t\t\tthrow new thrift.TApplicationError(\n",
            "\t\t\t\tthrift.TApplicationErrorType.UNKNOWN_METHOD, tMsg.name);\n",
            "\t\t\x7d\n",
            "\t\tvar req = new t_" ++ G.ToLower op.Param ++ "." ++ op.Param ++ "();\n",
            "\t\treq.read(iprot);\n",
            "\t\tiprot.readMessageEnd();\n",
            "\t\treturn req;\n",
            "\t\x7d\n" ]
    ∧ (recvProc G op).mismatch.getLast? = some RecvStmt.throwUnknownMethod
    ∧ (recvProc G op).call fresh expected frame
        = if frame.name ≠ expected then
            some { trace := [RecvEvent.readMessageBegin, RecvEvent.skipBody,
                     RecvEvent.readMessageEnd],
                   req := none,
                   outcome := some (Outcome.unknownMethod frame.name) }
          else
            some { trace := [RecvEvent.readMessageBegin,
                     RecvEvent.allocate ("t_" ++ G.ToLower op.Param ++ "." ++ op.Param),
                     RecvEvent.readBody, RecvEvent.readMessageEnd],
                   req := some frame.body,
                   outcome := some (Outcome.returned frame.body) } := by
  refine ⟨recvPieces_render G op, GenerateSubscriber_render G scope, ?_, ?_, ?_,
    recv_call_eq G op fresh expected frame⟩
  · simp [subscriberClass, List.map_map, Function.comp_def]
  · simp [recvPieces]
  · simp [recvProc]

/-! ## The order of the statements of a publish procedure -/

/-- C6: in the text of every emitted publish procedure the statements for the topic,
`preparePublish`, the counter increment, the envelope, `writeMessageBegin`, `req.write`,
`writeMessageEnd` and the return of the flush occur in this order; only the signature and
the three variable statements precede `preparePublish`, and only the closing brace follows
the return. Every call that succeeds adds the events prepare, header, body, trailer, flush
in this order, and a call succeeds when the scope has no prefix variables and the names
are plain. -/
theorem publish_statement_order {α : Type} (G : Globals) (scope : Scope) (op : Operation)
    (top : List (String × String)) (req : α) (inst : Publisher α) :
    String.join (publishPieces G scope op) = (publishProc G scope op).render
    ∧ List.Sublist
        [ "\t\tvar topic = \"$\x7bprefix\x7d" ++ scope.Name
            ++ "$\x7bdelimiter\x7d$\x7bop\x7d\";\n",
          "\t\ttransport.preparePublish(topic);\n",
          "\t\tseqId++;\n",
          "\t\tvar msg = new thrift.TMessage(op, thrift.TMessageType.CALL, seqId);\n",
          "\t\toprot.writeMessageBegin(msg);\n",
          "\t\treq.write(oprot);\n",
          "\t\toprot.writeMessageEnd();\n",
          "\t\treturn oprot.transport.flush();\n" ]
        (publishPieces G scope op)
    ∧ (publishPieces G scope op).take 5
        = [ "\tpublish" ++ op.Name ++ "(t_" ++ G.ToLower op.Param ++ "." ++ op.Param
              ++ " req) \x7b\n",
            "\t\tvar op = \"" ++ op.Name ++ "\";\n",
            "\t\tvar prefix = \"" ++ generatePrefixStringTemplate G scope ++ "\";\n",
            "\t\tvar topic = \"$\x7bprefix\x7d" ++ scope.Name
              ++ "$\x7bdelimiter\x7d$\x7bop\x7d\";\n",
            "\t\ttransport.preparePublish(topic);\n" ]
    ∧ (publishPieces G scope op).drop 11
        = ["\t\treturn oprot.transport.flush();\n", "\t\x7d\n"]
    ∧ (publishProc G scope op).body.getLast? = some PubStmt.returnFlush
    ∧ (∀ inst1, (publishProc G scope op).call top req inst = some inst1 →
        ∃ topic msg, inst1.trace = inst.trace ++
          [ Event.preparePublish topic, Event.writeMessageBegin msg, Event.writeBody req,
            Event.writeMessageEnd, Event.flush ])
    ∧ (scope.Prefix.Variables = [] → plainText '"' scope.Name → plainText '"' op.Name →
        ((publishProc G scope op).call [("delimiter", G.TopicDelimiter)] req inst).map
            (fun p => p.trace)
          = some (inst.trace ++
              [ Event.preparePublish (scope.Name ++ G.TopicDelimiter ++ op.Name),
                Event.writeMessageBegin (Envelope.mk op.Name .CALL (inst.seqId + 1)),
                Event.writeBody req, Event.writeMessageEnd, Event.flush ])) := by
  refine ⟨publishPieces_render G scope op, ?_, by simp [publishPieces],
    by simp [publishPieces], by simp [publishProc, publishBody], ?_, ?_⟩
  · exact .cons _ (.cons _ (.cons _ (.cons₂ _ (.cons₂ _ (.cons _ (.cons₂ _ (.cons₂ _
      (.cons₂ _ (.cons₂ _ (.cons₂ _ (.cons₂ _ (.cons _ .slnil))))))))))))
  · intro inst1 h
    obtain ⟨topic, name, _, hi⟩ := publish_call_some G scope op top req inst inst1 h
    exact ⟨topic, _, by rw [hi]⟩
  · intro hv hs ho
    rw [publish_call G scope op req inst hv hs ho]
    rfl

theorem publish_statement_order_witness :
    ((publishProc sampleGlobals eventsScope pingOp).call
        [("delimiter", sampleGlobals.TopicDelimiter)] (7 : Nat)
        { seqId := 0, trace := [] }).map (fun p => p.trace)
      = some [ Event.preparePublish "Events.Ping",
               Event.writeMessageBegin (Envelope.mk "Ping" .CALL 1),
               Event.writeBody 7, Event.writeMessageEnd, Event.flush ] :=
  (publish_statement_order sampleGlobals eventsScope pingOp [] (7 : Nat)
    { seqId := 0, trace := [] }).2.2.2.2.2.2 (by decide) (by decide) (by decide)

/-! ## The envelope and the sequence counter -/

/-- C7, as stated, fails: in the procedure `publishPing` emitted for the scope `Events` the
envelope is built with `thrift.TMessageType.CALL`, so the one envelope a call writes has
the type `CALL` and not the type `ONEWAY` of a one-way call. -/
theorem envelope_tag_is_call_not_oneway :
    (publishPieces sampleGlobals eventsScope pingOp).get? 7
        = some "\t\tvar msg = new thrift.TMessage(op, thrift.TMessageType.CALL, seqId);\n"
    ∧ ((publishProc sampleGlobals eventsScope pingOp).call [("delimiter", ".")] (7 : Nat)
          { seqId := 0, trace := [] }).map (fun p => envelopes p.trace)
        = some [Envelope.mk "Ping" .CALL 1]
    ∧ ((publishProc sampleGlobals eventsScope pingOp).call [("delimiter", ".")] (7 : Nat)
          { seqId := 0, trace := [] }).map (fun p => envelopes p.trace)
        ≠ some [Envelope.mk "Ping" .ONEWAY 1] := by
  decide

/-- C7, amended: in every emitted publish procedure the counter increment is followed by
the construction of the envelope from `op`, `thrift.TMessageType.CALL` and `seqId`; every
call that succeeds writes exactly one more envelope, which carries the value of the `op`
literal, the message type `CALL` and the counter after the increment; and for a scope
without prefix variables and plain names the call succeeds and the name is `op.Name`. -/
theorem envelope_of_publish {α : Type} (G : Globals) (scope : Scope) (op : Operation)
    (top : List (String × String)) (req : α) (inst : Publisher α) :
    String.join (publishPieces G scope op) = (publishProc G scope op).render
    ∧ (publishPieces G scope op).get? 1 = some ("\t\tvar op = \"" ++ op.Name ++ "\";\n")
    ∧ ((publishPieces G scope op).drop 6).take 2
        = [ "\t\tseqId++;\n",
            "\t\tvar msg = new thrift.TMessage(op, thrift.TMessageType.CALL, seqId);\n" ]
    ∧ (∀ inst1, (publishProc G scope op).call top req inst = some inst1 →
        ∃ name, evalLit '"' (lookupVar top) op.Name = some name
          ∧ inst1.seqId = inst.seqId + 1
          ∧ envelopes inst1.trace
              = envelopes inst.trace ++ [Envelope.mk name .CALL (inst.seqId + 1)])
    ∧ (scope.Prefix.Variables = [] → plainText '"' scope.Name → plainText '"' op.Name →
        ((publishProc G scope op).call [("delimiter", G.TopicDelimiter)] req inst).map
            (fun p => envelopes p.trace)
          = some (envelopes inst.trace ++ [Envelope.mk op.Name .CALL (inst.seqId + 1)])) := by
  refine ⟨publishPieces_render G scope op, by simp [publishPieces], by simp [publishPieces],
    ?_, ?_⟩
  · intro inst1 h
    obtain ⟨topic, name, hn, hi⟩ := publish_call_some G scope op top req inst inst1 h
    refine ⟨name, hn, by rw [hi], ?_⟩
    rw [hi]
    simp [envelopes_append, envelopes]
  · intro hv hs ho
    rw [publish_call G scope op req inst hv hs ho]
    simp [envelopes_append, envelopes]

theorem envelope_of_publish_witness :
    ((publishProc sampleGlobals eventsScope pongOp).call
        [("delimiter", sampleGlobals.TopicDelimiter)] (7 : Nat)
        { seqId := 4, trace := [] }).map (fun p => envelopes p.trace)
      = some [Envelope.mk "Pong" .CALL 5] :=
  (envelope_of_publish sampleGlobals eventsScope pongOp [] (7 : Nat)
    { seqId := 4, trace := [] }).2.2.2.2 (by decide) (by decide) (by decide)

/-- C8: in the publisher emitted for any scope the constructor assigns `seqId` once, the
value 0, so a new instance starts at 0; the body of every publish procedure changes
`seqId` by one increment only, placed just before the construction of the envelope; hence
whenever a sequence of calls on a new instance succeeds, the counter ends at the number of
calls and the envelopes carry the sequence numbers 1, 2, ..., in order; and the calls do
succeed for a scope without prefix variables and plain names. -/
theorem sequence_counter_counts_calls {α : Type} (G : Globals) (scope : Scope)
    (top : List (String × String)) (calls : List (Operation × α)) :
    GeneratePublisher G scope = (publisherClass G scope).render
    ∧ (publisherHeadPieces scope).drop 5
        = [ "\t\tvar provider = new frugal.Provider(t, f, p);\n",
            "\t\tvar tp = provider.newTransportProtocol();\n",
            "\t\ttransport = tp.transport;\n",
            "\t\tprotocol = tp.protocol;\n",
            "\t\tseqId = 0;\n",
            "\t\x7d\n\n" ]
    ∧ (publisherClass G scope).ctor.filter CtorStmt.assignsSeqId = [CtorStmt.setSeqId 0]
    ∧ (publisherClass G scope).construct = some (Publisher.mk (α := α) 0 [])
    ∧ (∀ p ∈ (publisherClass G scope).procs,
        p.body.filter PubStmt.changesSeqId = [PubStmt.incSeqId]
        ∧ (p.body.drop 5).take 2 = [PubStmt.incSeqId, PubStmt.newMsg .CALL])
    ∧ (∀ inst1, publishAll G scope top calls (Publisher.mk 0 []) = some inst1 →
        inst1.seqId = calls.length
        ∧ (envelopes inst1.trace).map (fun m => m.seqid) = List.range' 1 calls.length)
    ∧ (scope.Prefix.Variables = [] → plainText '"' scope.Name →
        (∀ c ∈ calls, plainText '"' c.1.Name) →
        ∃ inst1, publishAll G scope [("delimiter", G.TopicDelimiter)] calls (Publisher.mk 0 [])
          = some inst1) := by
  refine ⟨GeneratePublisher_render G scope, by simp [publisherHeadPieces],
    by simp [publisherClass, CtorStmt.assignsSeqId], by simp [publisherClass, PubClass.construct],
    ?_, ?_, ?_⟩
  · intro p hp
    simp only [publisherClass, List.mem_map] at hp
    obtain ⟨op, _, rfl⟩ := hp
    simp [publishProc, publishBody, PubStmt.changesSeqId]
  · intro inst1 h
    have hs := publishAll_some G scope top calls (Publisher.mk 0 []) inst1 h
    simpa using hs
  · intro hv hs ho
    exact publishAll_total G scope calls hv hs ho _

theorem sequence_counter_counts_calls_witness :
    (publishAll sampleGlobals eventsScope [("delimiter", sampleGlobals.TopicDelimiter)]
        [(pingOp, (7 : Nat)), (pongOp, 8), (pingOp, 9)] (Publisher.mk 0 [])).map
          (fun p => (p.seqId, (envelopes p.trace).map (fun m => m.seqid)))
      = some (3, [1, 2, 3]) := by
  obtain ⟨inst1, h⟩ := (sequence_counter_counts_calls sampleGlobals eventsScope
    [("delimiter", sampleGlobals.TopicDelimiter)]
    [(pingOp, (7 : Nat)), (pongOp, 8), (pingOp, 9)]).2.2.2.2.2.2
      (by decide) (by decide) (by decide)
  have h2 := (sequence_counter_counts_calls sampleGlobals eventsScope
    [("delimiter", sampleGlobals.TopicDelimiter)]
    [(pingOp, (7 : Nat)), (pongOp, 8), (pingOp, 9)]).2.2.2.2.2.1 inst1 h
  rw [h]
  simp only [Option.map_some', h2.1, h2.2]
  rfl

/-! ## The procedures of a publisher class -/

/-- C9: for every scope the text of `GeneratePublisher` is the class head, which ends with
the constructor, then the texts of the publish procedures of the operations in
declaration order, separated by a blank line, then the closing brace; the procedure of an
operation is named `publish<op.Name>` and has the one parameter `req` of type
`t_<lowercase(op.Param)>.<op.Param>`; and for a scope without operations the text is the
class head followed by the closing brace. -/
theorem one_publish_procedure_per_operation (G : Globals) (scope : Scope) :
    GeneratePublisher G scope
      = String.join (publisherHeadPieces scope)
        ++ String.intercalate "\n\n"
            (scope.Operations.map fun op => String.join (publishPieces G scope op))
        ++ "\x7d\n"
    ∧ GeneratePublisher G scope = (publisherClass G scope).render
    ∧ (publisherClass G scope).procs.length = scope.Operations.length
    ∧ (publisherClass G scope).procs.map (fun p => p.name)
        = scope.Operations.map (fun op => "publish" ++ op.Name)
    ∧ (publisherClass G scope).procs.map (fun p => p.params)
        = scope.Operations.map
            (fun op => [("t_" ++ G.ToLower op.Param ++ "." ++ op.Param, "req")])
    ∧ (∀ op, (publishPieces G scope op).head?
        = some ("\tpublish" ++ op.Name ++ "(t_" ++ G.ToLower op.Param ++ "." ++ op.Param
            ++ " req) \x7b\n")
        ∧ String.join (publishPieces G scope op) = (publishProc G scope op).render)
    ∧ GeneratePublisher G { scope with Operations := [] }
        = String.join (publisherHeadPieces scope) ++ "\x7d\n"
    ∧ (publisherClass G { scope with Operations := [] }).procs = [] := by
  refine ⟨publisher_text G scope, GeneratePublisher_render G scope,
    by simp [publisherClass], by simp [publisherClass, publishProc, Function.comp_def],
    by simp [publisherClass, publishProc, Function.comp_def], ?_, ?_, rfl⟩
  · intro op
    exact ⟨by simp [publishPieces], publishPieces_render G scope op⟩
  · rw [publisher_text]
    simp [String.intercalate, publisherHeadPieces]

/-! ## The subscribe procedure -/

/-- The state after one call of an emitted subscribe procedure, for any scope. -/
theorem subscribe_call_some (G : Globals) (scope : Scope) (op : Operation)
    (top : List (String × String)) (fresh : Nat) (st : SubState)
    (h : (subscribeProc G scope op).call top fresh = some st) :
    ∃ topic name, evalLit '"' (lookupVar top) op.Name = some name
      ∧ st.fresh = fresh + 1
      ∧ st.tp = some fresh
      ∧ st.bound = [(fresh, topic)]
      ∧ st.handlers = [Handler.mk fresh ("on" ++ op.Param) ("_recv" ++ op.Name) name]
      ∧ st.result = some (Subscription.mk topic fresh) := by
  simp only [SubProc.call, subscribeProc, subscribeBody, runSub, SubStmt.exec,
    List.nil_append, List.cons_append] at h
  cases h1 : evalLit '"' (lookupVar top) op.Name with
  | none => simp [h1] at h
  | some v1 =>
    cases h2 : evalLit '"' (lookupVar (("op", v1) :: top))
        (generatePrefixStringTemplate G scope) with
    | none => simp [h1, h2] at h
    | some v2 =>
      cases h3 : evalLit '"' (lookupVar (("prefix", v2) :: ("op", v1) :: top))
          ("$\x7bprefix\x7d" ++ scope.Name ++ "$\x7bdelimiter\x7d$\x7bop\x7d") with
      | none => simp [h1, h2, h3] at h
      | some v3 =>
        simp [h1, h2, h3, lookupVar, List.lookup] at h
        subst h
        exact ⟨v3, v1, rfl, rfl, rfl, rfl, rfl, rfl⟩

theorem subscriberClass_wellScoped (G : Globals) (scope : Scope) :
    (subscriberClass G scope).wellScoped := by
  intro m hm callback recv hl
  simp only [subscriberClass, List.mem_map] at hm
  obtain ⟨op, _, rfl⟩ := hm
  simp [subscribeProc, subscribeBody] at hl
  simp [subscribeProc, recvProc, hl.1, hl.2]

/-- C10: for every operation the text of `subscribe<Op>` takes the callback
`on<op.Param>`, acquires a transport, binds it to `topic`, registers a handler that passes
the result of `_recv<op.Name>` to `on<op.Param>`, and returns a subscription built from
`topic` and that transport; `_recv<op.Name>` is the routine emitted for that same
operation, so in the emitted class every handler refers to the callback of its own
procedure and to the routine next to it. Every call that succeeds binds the freshly
acquired transport to one topic and returns the subscription of that topic and that
transport; and the call succeeds, with the topic `scope.Name ++ delimiter ++ op.Name`, for
a scope without prefix variables and plain names. -/
theorem subscribe_binds_computed_topic (G : Globals) (scope : Scope) (op : Operation)
    (top : List (String × String)) (fresh : Nat) :
    GenerateSubscriber G scope = (subscriberClass G scope).render
    ∧ (subscriberClass G scope).members
        = scope.Operations.map (fun o => (subscribeProc G scope o, recvProc G o))
    ∧ String.join (subscribePieces G scope op) = (subscribeProc G scope op).render ++ "\n"
    ∧ String.join (recvPieces G op) = (recvProc G op).render
    ∧ (subscribePieces G scope op).head?
        = some ("\tsubscribe" ++ op.Name ++ "(dynamic on" ++ op.Param ++ "(t_"
            ++ G.ToLower op.Param ++ "." ++ op.Param ++ " req)) async \x7b\n")
    ∧ (subscribePieces G scope op).drop 4
        = [ "\t\tvar tp = provider.newTransportProtocol();\n",
            "\t\tawait tp.transport.subscribe(topic);\n",
            "\t\ttp.transport.signalRead.listen((_) \x7b\n",
            "\t\t\ton" ++ op.Param ++ "(_recv" ++ op.Name ++ "(op, tp.protocol));\n",
            "\t\t\x7d);\n",
            "\t\treturn new frugal.Subscription(topic, tp.transport);\n",
            "\t\x7d\n\n" ]
    ∧ (recvPieces G op).head?
        = some ("\tt_" ++ G.ToLower op.Param ++ "." ++ op.Param ++ " _recv" ++ op.Name
            ++ "(String op, thrift.TProtocol iprot) \x7b\n")
    ∧ (subscriberClass G scope).wellScoped
    ∧ (∀ st, (subscribeProc G scope op).call top fresh = some st →
        ∃ topic name, evalLit '"' (lookupVar top) op.Name = some name
          ∧ st.tp = some fresh
          ∧ st.bound = [(fresh, topic)]
          ∧ st.handlers = [Handler.mk fresh ("on" ++ op.Param) ("_recv" ++ op.Name) name]
          ∧ st.result = some (Subscription.mk topic fresh))
    ∧ (scope.Prefix.Variables = [] → plainText '"' scope.Name → plainText '"' op.Name →
        ((subscribeProc G scope op).call [("delimiter", G.TopicDelimiter)] fresh).map
            (fun st => (st.bound, st.handlers, st.result))
          = some ([(fresh, scope.Name ++ G.TopicDelimiter ++ op.Name)],
              [Handler.mk fresh ("on" ++ op.Param) ("_recv" ++ op.Name) op.Name],
              some (Subscription.mk (scope.Name ++ G.TopicDelimiter ++ op.Name) fresh))) := by
  refine ⟨GenerateSubscriber_render G scope, rfl, subscribePieces_render G scope op,
    recvPieces_render G op, by simp [subscribePieces], by simp [subscribePieces],
    by simp [recvPieces], subscriberClass_wellScoped G scope, ?_, ?_⟩
  · intro st h
    obtain ⟨topic, name, h1, _, h3, h4, h5, h6⟩ :=
      subscribe_call_some G scope op top fresh st h
    exact ⟨topic, name, h1, h3, h4, h5, h6⟩
  · intro hv hs ho
    rw [subscribe_call G scope op fresh hv hs ho]
    rfl

theorem subscribe_binds_computed_topic_witness :
    ((subscribeProc sampleGlobals eventsScope pingOp).call
        [("delimiter", sampleGlobals.TopicDelimiter)] 3).map
          (fun st => (st.bound, st.handlers, st.result))
      = some ([(3, "Events.Ping")], [Handler.mk 3 "onPingRequest" "_recvPing" "Ping"],
          some (Subscription.mk "Events.Ping" 3)) :=
  (subscribe_binds_computed_topic sampleGlobals eventsScope pingOp [] 3).2.2.2.2.2.2.2.2.2
    (by decide) (by decide) (by decide)

/-! ## The export aggregation -/

/-- The text built by a loop that appends `f x` for each `x`. -/
theorem foldl_append_join {α : Type} (f : α → String) (l : List α) (init : String) :
    l.foldl (fun acc x => acc ++ f x) init = init ++ String.join (l.map f) := by
  induction l generalizing init with
  | nil => simp [join_nil]
  | cons x xs ih => simp only [List.foldl_cons, ih, List.map, join_cons, String.append_assoc]

theorem writeAt_end (old data : List UInt8) : writeAt old old.length data = old ++ data := by
  simp [writeAt]

theorem read_put_same (fs : FileSystem) (path : String) (content : List UInt8) :
    (fs.put path content).read path = some content := by
  simp [FileSystem.put, FileSystem.read, List.lookup]

theorem read_put_other (fs : FileSystem) (path other : String) (content : List UInt8)
    (h : other ≠ path) : (fs.put path content).read other = fs.read other := by
  have hb : (other == path) = false := by simpa using h
  simp [FileSystem.put, FileSystem.read, List.lookup, hb]

/-- C11: for every program the text `exports` that `exportClasses` writes is a newline
followed by one line per scope, in the order of the scopes, the line of a scope being
`export 'src/<FilePrefix><lowercase(Name)>.dart' show <Name>Publisher, <Name>Subscriber;`
with a newline; for a program without scopes the text is the newline alone. -/
theorem export_lines_follow_scopes (G : Globals) (p : Program) :
    exportsText G p
      = "\n" ++ String.join (p.Scopes.map fun scope =>
          "export 'src/" ++ G.FilePrefix ++ G.ToLower scope.Name ++ ".dart' show "
            ++ scope.Name ++ "Publisher, " ++ scope.Name ++ "Subscriber;\n")
    ∧ (p.Scopes.map fun scope =>
          "export 'src/" ++ G.FilePrefix ++ G.ToLower scope.Name ++ ".dart' show "
            ++ scope.Name ++ "Publisher, " ++ scope.Name ++ "Subscriber;\n").length
        = p.Scopes.length
    ∧ exportsText G { p with Scopes := [] } = "\n" := by
  refine ⟨?_, by simp, rfl⟩
  have hline : (fun (scope : Scope) =>
        "export 'src/" ++ G.FilePrefix ++ G.ToLower scope.Name ++ "." ++ lang
          ++ "' show " ++ scope.Name ++ "Publisher, " ++ scope.Name ++ "Subscriber;\n")
      = (fun (scope : Scope) =>
        "export 'src/" ++ G.FilePrefix ++ G.ToLower scope.Name ++ ".dart' show "
          ++ scope.Name ++ "Publisher, " ++ scope.Name ++ "Subscriber;\n") := by
    funext scope
    apply String.ext
    simp only [lang, String.data_append, List.append_assoc]
    rfl
  unfold exportsText
  rw [foldl_append_join, hline]

/-- C12: when the aggregate file exists, `exportClasses` keeps the old contents as the
beginning of the new ones and leaves every other file as it was, whatever fails; and when
no call fails it returns no error and the contents afterwards are the old contents
followed by the bytes of the export text. -/
theorem export_appends_at_end (G : Globals) (L : Libraries) (fs : FileSystem) (p : Program)
    (dir : String) (old : List UInt8) (hold : fs.read (mainFilePath G L p dir) = some old) :
    (∃ new, (exportClasses G L fs p dir).2.read (mainFilePath G L p dir) = some new
        ∧ old <+: new)
    ∧ (∀ other, other ≠ mainFilePath G L p dir →
        (exportClasses G L fs p dir).2.read other = fs.read other)
    ∧ (fs.fails .openFile (mainFilePath G L p dir) = false →
        fs.fails .stat (mainFilePath G L p dir) = false →
        fs.fails .write (mainFilePath G L p dir) = false →
        (exportClasses G L fs p dir).1 = none
        ∧ (exportClasses G L fs p dir).2.read (mainFilePath G L p dir)
            = some (old ++ utf8 (exportsText G p))) := by
  refine ⟨?_, ?_, ?_⟩
  · unfold exportClasses OpenFile StatSize WriteAt
    simp only [hold]
    by_cases ho : fs.fails .openFile (mainFilePath G L p dir) = true
    · simp [ho, hold]
    · by_cases hs : fs.fails .stat (mainFilePath G L p dir) = true
      · simp [ho, hs, hold]
      · by_cases hw : fs.fails .write (mainFilePath G L p dir) = true
        · simp [ho, hs, hw, hold]
        · simp [ho, hs, hw, read_put_same, writeAt_end]
  · intro other hne
    unfold exportClasses OpenFile StatSize WriteAt
    simp only [hold]
    by_cases ho : fs.fails .openFile (mainFilePath G L p dir) = true
    · simp [ho]
    · by_cases hs : fs.fails .stat (mainFilePath G L p dir) = true
      · simp [ho, hs]
      · by_cases hw : fs.fails .write (mainFilePath G L p dir) = true
        · simp [ho, hs, hw]
        · simp [ho, hs, hw, read_put_other _ _ _ _ hne]
  · intro ho hs hw
    unfold exportClasses OpenFile StatSize WriteAt
    simp [ho, hs, hw, hold, read_put_same, writeAt_end]

theorem export_appends_at_end_witness :
    sampleFiles.read (mainFilePath sampleGlobals sampleLibraries fooProgram "out")
        = some (utf8 "library foo;\n")
    ∧ (exportClasses sampleGlobals sampleLibraries sampleFiles fooProgram "out").1 = none
    ∧ (exportClasses sampleGlobals sampleLibraries sampleFiles fooProgram "out").2.read
          "out/lib/foo.dart"
        = some (utf8 "library foo;\n" ++ utf8 (exportsText sampleGlobals fooProgram)) :=
  ⟨by decide,
   (export_appends_at_end sampleGlobals sampleLibraries sampleFiles fooProgram "out"
      (utf8 "library foo;\n") (by decide)).2.2 rfl rfl rfl⟩

/-- What `addToPubspec` leaves as it was: the calls that fail, and every file but the
manifest. -/
theorem addToPubspec_frame (G : Globals) (L : Libraries) (fs : FileSystem) (p : Program)
    (dir : String) :
    (addToPubspec G L fs p dir).2.fails = fs.fails
    ∧ ∀ other, other ≠ L.Join [dir, "pubspec.yaml"] →
        (addToPubspec G L fs p dir).2.read other = fs.read other := by
  unfold addToPubspec Create WriteAt
  cases hm : L.Marshal (pubspecOf G p) with
  | error message => simp [hm]
  | ok d =>
    by_cases hc : fs.fails .create (L.Join [dir, "pubspec.yaml"]) = true
    · simp [hm, hc]
    · by_cases hw : fs.fails .write (L.Join [dir, "pubspec.yaml"]) = true
      · simp only [hm, hc, Bool.false_eq_true, if_false]
        simp only [FileSystem.put, hw, if_true, true_and]
        intro other hne
        have hb : (other == L.Join [dir, "pubspec.yaml"]) = false := by simpa using hne
        simp [FileSystem.read, List.lookup, hb]
      · simp only [hm, hc, Bool.false_eq_true, if_false]
        simp only [FileSystem.put, hw, Bool.false_eq_true, if_false]
        refine ⟨by simp [FileSystem.read, List.lookup], ?_⟩
        intro other hne
        have hb : (other == L.Join [dir, "pubspec.yaml"]) = false := by simpa using hne
        simp [FileSystem.read, List.lookup, hb]

/-- The error of `exportClasses` when the aggregate file is absent depends on the files
only through the calls that fail. -/
theorem exportClasses_absent (G : Globals) (L : Libraries) (fs : FileSystem) (p : Program)
    (dir : String) (habs : fs.read (mainFilePath G L p dir) = none) :
    exportClasses G L fs p dir
      = (some (if fs.fails .openFile (mainFilePath G L p dir)
                then FileError.failed .openFile (mainFilePath G L p dir)
                else FileError.notExist (mainFilePath G L p dir)), fs) := by
  unfold exportClasses OpenFile
  by_cases ho : fs.fails .openFile (mainFilePath G L p dir) = true
  · simp [ho]
  · simp [ho, habs]

/-- C13: when the aggregate file is absent, `exportClasses` returns an error, which is the
error of a missing file unless the opening fails for another reason, and leaves the files
as they were, so it creates nothing and writes nothing; and `GenerateDependencies` returns
that same error whenever `addToPubspec` has returned no error, the manifest being another
file than the aggregate file. -/
theorem export_fails_without_aggregate (G : Globals) (L : Libraries) (fs : FileSystem)
    (p : Program) (dir : String) (habs : fs.read (mainFilePath G L p dir) = none) :
    mainFilePath G L p dir = L.Join [dir, "lib", G.ToLower p.Name ++ ".dart"]
    ∧ (∃ err, (exportClasses G L fs p dir).1 = some err)
    ∧ (fs.fails .openFile (mainFilePath G L p dir) = false →
        (exportClasses G L fs p dir).1 = some (FileError.notExist (mainFilePath G L p dir)))
    ∧ (exportClasses G L fs p dir).2 = fs
    ∧ ((addToPubspec G L fs p dir).1 = none →
        L.Join [dir, "pubspec.yaml"] ≠ mainFilePath G L p dir →
        (GenerateDependencies G L fs p dir).1 = (exportClasses G L fs p dir).1
        ∧ (GenerateDependencies G L fs p dir).2.read (mainFilePath G L p dir) = none) := by
  have hx := exportClasses_absent G L fs p dir habs
  refine ⟨?_, ⟨_, by rw [hx]⟩, ?_, by rw [hx], ?_⟩
  · have hname : G.ToLower p.Name ++ "." ++ lang = G.ToLower p.Name ++ ".dart" := by
      apply String.ext
      simp only [lang, String.data_append, List.append_assoc]
      rfl
    simp only [mainFilePath, hname]
  · intro ho
    rw [hx]
    simp [ho]
  · intro hpub hne
    obtain ⟨hf, hr⟩ := addToPubspec_frame G L fs p dir
    have habs1 : (addToPubspec G L fs p dir).2.read (mainFilePath G L p dir) = none := by
      rw [hr _ (Ne.symm hne)]
      exact habs
    have hx1 := exportClasses_absent G L (addToPubspec G L fs p dir).2 p dir habs1
    have hgd : GenerateDependencies G L fs p dir
        = exportClasses G L (addToPubspec G L fs p dir).2 p dir := by
      unfold GenerateDependencies
      cases hr : addToPubspec G L fs p dir with
      | mk e fs1 =>
        simp only [hr] at hpub hx1
        subst hpub
        simp only [hx1]
    rw [hgd, hx1, hx, hf]
    exact ⟨rfl, habs1⟩

theorem export_fails_without_aggregate_witness :
    emptyFiles.read (mainFilePath sampleGlobals sampleLibraries fooProgram "out") = none
    ∧ (exportClasses sampleGlobals sampleLibraries emptyFiles fooProgram "out").1
        = some (FileError.notExist "out/lib/foo.dart")
    ∧ (GenerateDependencies sampleGlobals sampleLibraries emptyFiles fooProgram "out").1
        = some (FileError.notExist "out/lib/foo.dart") :=
  have h := export_fails_without_aggregate sampleGlobals sampleLibraries emptyFiles fooProgram
    "out" (by decide)
  ⟨by decide, h.2.2.1 rfl, (h.2.2.2.2 (by decide) (by decide)).1.trans (h.2.2.1 rfl)⟩

/-! ## The manifest -/

set_option maxRecDepth 100000

/-- C14, at a directory in which `os.Create` fails: the manifest file cannot be created,
yet `addToPubspec` returns no error, and `GenerateDependencies` goes on to the export
aggregation, appends the exports to the aggregate file and returns no error either. -/
theorem create_failure_is_swallowed :
    readOnlyFiles.fails Syscall.create (sampleLibraries.Join ["out", "pubspec.yaml"]) = true
    ∧ (addToPubspec sampleGlobals sampleLibraries readOnlyFiles fooProgram "out").1 = none
    ∧ (addToPubspec sampleGlobals sampleLibraries readOnlyFiles fooProgram "out").2.read
        "out/pubspec.yaml" = none
    ∧ (GenerateDependencies sampleGlobals sampleLibraries readOnlyFiles fooProgram "out").1
        = none
    ∧ (GenerateDependencies sampleGlobals sampleLibraries readOnlyFiles fooProgram "out").2.read
          "out/lib/foo.dart"
        = some (utf8 "library foo;\n" ++ utf8 (exportsText sampleGlobals fooProgram)) := by
  decide

/-- C15: for every program the descriptor `addToPubspec` builds has the lower-cased
program name as name, the version `0.0.1`, the description
`Autogenerated by the frugal compiler`, the constraint `^1.12.0` on the runtime, and the
two dependencies `thrift` and `frugal`, each a git URL; the namespaces and the scopes of
the program do not change it; and when no call fails the manifest file holds the bytes
`yaml.Marshal` gives for this descriptor. -/
theorem manifest_descriptor (G : Globals) (L : Libraries) (fs : FileSystem) (p : Program)
    (dir : String) (namespaces : List (String × String)) (scopes : List Scope) :
    pubspecOf G p
      = { Name := G.ToLower p.Name
          Version := "0.0.1"
          Description := "Autogenerated by the frugal compiler"
          Environment := { SDK := "^1.12.0" }
          Dependencies :=
            { Thrift := { Git := { URL := "git@github.com:Workiva/thrift-dart.git" } }
              Frugal := { Git := { URL := "git@github.com:Workiva/frugal-dart.git" } } } }
    ∧ pubspecOf G { p with Namespaces := namespaces, Scopes := scopes } = pubspecOf G p
    ∧ addToPubspec G L fs { p with Namespaces := namespaces, Scopes := scopes } dir
        = addToPubspec G L fs p dir
    ∧ (∀ d, L.Marshal (pubspecOf G p) = Except.ok d →
        fs.fails .create (L.Join [dir, "pubspec.yaml"]) = false →
        fs.fails .write (L.Join [dir, "pubspec.yaml"]) = false →
        (addToPubspec G L fs p dir).1 = none
        ∧ (addToPubspec G L fs p dir).2.read (L.Join [dir, "pubspec.yaml"]) = some d) := by
  refine ⟨rfl, rfl, rfl, ?_⟩
  intro d hm hc hw
  unfold addToPubspec Create WriteAt
  simp [hm, hc, FileSystem.put, hw, FileSystem.read, List.lookup, writeAt]

theorem manifest_descriptor_witness :
    (addToPubspec sampleGlobals sampleLibraries emptyFiles fooProgram "out").1 = none
    ∧ (addToPubspec sampleGlobals sampleLibraries emptyFiles fooProgram "out").2.read
          "out/pubspec.yaml"
        = some (utf8 ("name: foo\nversion: 0.0.1\n"
            ++ "description: Autogenerated by the frugal compiler\n"
            ++ "environment:\n  sdk: ^1.12.0\n"
            ++ "dependencies:\n  thrift:\n    git:\n"
            ++ "      url: git@github.com:Workiva/thrift-dart.git\n"
            ++ "  frugal:\n    git:\n"
            ++ "      url: git@github.com:Workiva/frugal-dart.git\n")) :=
  (manifest_descriptor sampleGlobals sampleLibraries emptyFiles fooProgram "out" [] []).2.2.2
    _ rfl rfl rfl

/-! ## The imports -/

/-- The keys of the map `params` while the first loop of `GenerateImports` runs. -/
theorem importParams_loop (ops : List Operation) :
    ∀ params : List String, params.Nodup →
      (ops.foldl (fun params op => if op.Param ∈ params then params else params ++ [op.Param])
          params).Nodup
      ∧ ∀ k, k ∈ ops.foldl
            (fun params op => if op.Param ∈ params then params else params ++ [op.Param]) params
          ↔ k ∈ params ∨ ∃ op ∈ ops, op.Param = k := by
  induction ops with
  | nil => intro params h; simp [h]
  | cons o os ih =>
    intro params h
    simp only [List.foldl_cons]
    by_cases hm : o.Param ∈ params
    · obtain ⟨h1, h2⟩ := ih params h
      simp only [hm, if_true]
      refine ⟨h1, fun k => ?_⟩
      rw [h2 k]
      constructor
      · rintro (hk | ⟨op, hop, rfl⟩)
        · exact Or.inl hk
        · exact Or.inr ⟨op, List.mem_cons_of_mem _ hop, rfl⟩
      · rintro (hk | ⟨op, hop, rfl⟩)
        · exact Or.inl hk
        · rcases List.mem_cons.mp hop with rfl | hop
          · exact Or.inl hm
          · exact Or.inr ⟨op, hop, rfl⟩
    · have hn : (params ++ [o.Param]).Nodup := by
        rw [List.nodup_append]
        refine ⟨h, List.nodup_singleton _, ?_⟩
        intro a ha hb
        rw [List.mem_singleton] at hb
        subst hb
        exact hm ha
      obtain ⟨h1, h2⟩ := ih (params ++ [o.Param]) hn
      simp only [hm, if_false]
      refine ⟨h1, fun k => ?_⟩
      rw [h2 k]
      constructor
      · rintro (hk | ⟨op, hop, rfl⟩)
        · rcases List.mem_append.mp hk with hk | hk
          · exact Or.inl hk
          · rw [List.mem_singleton] at hk
            exact Or.inr ⟨o, List.mem_cons_self _ _, hk.symm⟩
        · exact Or.inr ⟨op, List.mem_cons_of_mem _ hop, rfl⟩
      · rintro (hk | ⟨op, hop, rfl⟩)
        · exact Or.inl (List.mem_append.mpr (Or.inl hk))
        · rcases List.mem_cons.mp hop with rfl | hop
          · exact Or.inl (List.mem_append.mpr (Or.inr (List.mem_singleton.mpr rfl)))
          · exact Or.inr ⟨op, hop, rfl⟩

theorem importParams_nodup (scope : Scope) : (importParams scope).Nodup :=
  (importParams_loop scope.Operations [] List.nodup_nil).1

theorem mem_importParams (scope : Scope) (k : String) :
    k ∈ importParams scope ↔ ∃ op ∈ scope.Operations, op.Param = k := by
  have h := (importParams_loop scope.Operations [] List.nodup_nil).2 k
  simpa [importParams] using h

theorem importParams_perm_dedup (scope : Scope) :
    (importParams scope).Perm ((scope.Operations.map fun op => op.Param).dedup) := by
  rw [List.perm_ext_iff_of_nodup (importParams_nodup scope) (List.nodup_dedup _)]
  intro k
  rw [mem_importParams, List.mem_dedup, List.mem_map]

theorem GenerateImports_eq (G : Globals) (scope : Scope)
    (visit : List String → List String) :
    GenerateImports G scope visit
      = "import 'dart:async';\n"
        ++ "import 'package:thrift/thrift.dart' as thrift;\n"
        ++ "import 'package:frugal/frugal.dart' as frugal;\n"
        ++ String.join ((visit (importParams scope)).map (importLine G)) := by
  unfold GenerateImports
  rw [foldl_append_join]

/-- C19: however `range` goes over the map, `GenerateImports` emits the three fixed
imports first and then one line `import '<lowercase(P)>.dart' as t_<lowercase(P)>;` for
each key visited; the keys visited are the parameter type names of the operations, each
once, so their number is the number of distinct parameter type names; and the line that
declares the alias `t_<lowercase(op.Param)>`, the alias the publish and subscribe
procedures of an operation use, is there for every operation of the scope. -/
theorem imports_one_line_per_parameter_type (G : Globals) (scope : Scope)
    (visit : List String → List String) (h : mapRange visit) :
    GenerateImports G scope visit
      = "import 'dart:async';\n"
        ++ "import 'package:thrift/thrift.dart' as thrift;\n"
        ++ "import 'package:frugal/frugal.dart' as frugal;\n"
        ++ String.join ((visit (importParams scope)).map fun key =>
            "import '" ++ G.ToLower key ++ ".dart' as t_" ++ G.ToLower key ++ ";\n")
    ∧ (visit (importParams scope)).Nodup
    ∧ (∀ key, key ∈ visit (importParams scope) ↔ ∃ op ∈ scope.Operations, op.Param = key)
    ∧ (visit (importParams scope)).length
        = ((scope.Operations.map fun op => op.Param).dedup).length
    ∧ (∀ op ∈ scope.Operations,
        ("import '" ++ G.ToLower op.Param ++ ".dart' as t_" ++ G.ToLower op.Param ++ ";\n")
          ∈ (visit (importParams scope)).map fun key =>
            "import '" ++ G.ToLower key ++ ".dart' as t_" ++ G.ToLower key ++ ";\n")
    ∧ (∀ op ∈ scope.Operations,
        (publishProc G scope op).params
            = [("t_" ++ G.ToLower op.Param ++ "." ++ op.Param, "req")]
        ∧ (subscribeProc G scope op).argType
            = "t_" ++ G.ToLower op.Param ++ "." ++ op.Param) := by
  have hp := h (importParams scope)
  have hmem : ∀ key, key ∈ visit (importParams scope)
      ↔ ∃ op ∈ scope.Operations, op.Param = key := by
    intro key
    rw [hp.mem_iff, mem_importParams]
  refine ⟨GenerateImports_eq G scope visit, hp.nodup_iff.mpr (importParams_nodup scope), hmem,
    (hp.trans (importParams_perm_dedup scope)).length_eq, ?_, ?_⟩
  · intro op hop
    exact List.mem_map.mpr ⟨op.Param, (hmem _).mpr ⟨op, hop, rfl⟩, rfl⟩
  · intro op _
    exact ⟨rfl, rfl⟩

theorem imports_one_line_per_parameter_type_witness :
    mapRange List.reverse
    ∧ GenerateImports sampleGlobals { eventsScope with Operations := [pingOp, pongOp, pingOp] }
          List.reverse
        = "import 'dart:async';\n"
          ++ "import 'package:thrift/thrift.dart' as thrift;\n"
          ++ "import 'package:frugal/frugal.dart' as frugal;\n"
          ++ "import 'pongrequest.dart' as t_pongrequest;\n"
          ++ "import 'pingrequest.dart' as t_pingrequest;\n" :=
  have hr : mapRange List.reverse := fun keys => List.reverse_perm keys
  ⟨hr, (imports_one_line_per_parameter_type sampleGlobals
      { eventsScope with Operations := [pingOp, pongOp, pingOp] } List.reverse hr).1.trans
        (by decide)⟩

/-- C16, at the scope `Events` with the parameter types `PingRequest` and `PongRequest`:
`range` may visit the keys of the map of parameter types in the order they were inserted
or in the reverse order, and the two give two different texts of `GenerateImports`, so two
runs on the same model need not write the same bytes. -/
theorem import_order_depends_on_map_iteration :
    mapRange (fun keys => keys)
    ∧ mapRange List.reverse
    ∧ GenerateImports sampleGlobals eventsScope (fun keys => keys)
        = "import 'dart:async';\n"
          ++ "import 'package:thrift/thrift.dart' as thrift;\n"
          ++ "import 'package:frugal/frugal.dart' as frugal;\n"
          ++ "import 'pingrequest.dart' as t_pingrequest;\n"
          ++ "import 'pongrequest.dart' as t_pongrequest;\n"
    ∧ GenerateImports sampleGlobals eventsScope List.reverse
        = "import 'dart:async';\n"
          ++ "import 'package:thrift/thrift.dart' as thrift;\n"
          ++ "import 'package:frugal/frugal.dart' as frugal;\n"
          ++ "import 'pongrequest.dart' as t_pongrequest;\n"
          ++ "import 'pingrequest.dart' as t_pingrequest;\n"
    ∧ GenerateImports sampleGlobals eventsScope (fun keys => keys)
        ≠ GenerateImports sampleGlobals eventsScope List.reverse :=
  ⟨fun keys => List.Perm.refl keys, fun keys => List.reverse_perm keys, by decide, by decide,
    by decide⟩

/-! ## The output directory and the library name -/

/-- The pieces of a text: there is a first piece, no piece holds the separator, and the
pieces with the separator put back between them are the text. -/
theorem splitChars_spec (sep : Char) (l : List Char) :
    ∃ piece rest, splitChars sep l = piece :: rest
      ∧ piece ++ (rest.map fun r => sep :: r).flatten = l
      ∧ sep ∉ piece ∧ ∀ r ∈ rest, sep ∉ r := by
  induction l with
  | nil => exact ⟨[], [], rfl, rfl, by simp, by simp⟩
  | cons c cs ih =>
    obtain ⟨piece, rest, hs, hj, hp, hr⟩ := ih
    by_cases hc : c = sep
    · refine ⟨[], piece :: rest, by simp [splitChars, hc, hs], ?_, by simp, ?_⟩
      · simp [hc, hj]
      · intro r hr1
        rcases List.mem_cons.mp hr1 with rfl | hr1
        · exact hp
        · exact hr r hr1
    · refine ⟨c :: piece, rest, by simp [splitChars, hc, hs], by simp [hj], ?_, hr⟩
      intro hmem
      rcases List.mem_cons.mp hmem with h | h
      · exact hc h.symm
      · exact hp h

theorem getPackageComponents_ne_nil (pkg : String) : getPackageComponents pkg ≠ [] := by
  obtain ⟨piece, rest, hs, _⟩ := splitChars_spec '.' pkg.data
  simp [getPackageComponents, hs]

theorem getPackageComponents_join (pkg : String) :
    String.intercalate "." (getPackageComponents pkg) = pkg := by
  obtain ⟨piece, rest, hs, hj, _⟩ := splitChars_spec '.' pkg.data
  simp only [getPackageComponents, hs, List.map, intercalate_cons]
  apply String.ext
  rw [← hj]
  simp only [String.data_append, String.data_join, List.map_map]
  have hf : (String.data ∘ (fun y => "." ++ y) ∘ String.mk) = (fun r : List Char => '.' :: r) := by
    funext r
    rfl
  rw [hf]

theorem getPackageComponents_no_dot (pkg c : String) (h : c ∈ getPackageComponents pkg) :
    '.' ∉ c.data := by
  obtain ⟨piece, rest, hs, _, hp, hr⟩ := splitChars_spec '.' pkg.data
  simp only [getPackageComponents, hs, List.map, List.mem_cons, List.mem_map] at h
  rcases h with rfl | ⟨r, hr1, rfl⟩
  · exact hp
  · exact hr r hr1

/-- C17: for a program that declares the namespace `pkg` for the target `dart`,
`GetOutputDir` returns the join of the base directory and the components of `pkg`, in
their order; the components are the pieces of `pkg` between its dots (none holds a dot and
with the dots put back they are `pkg`); and the name of the program does not change the
result. -/
theorem output_dir_with_namespace (L : Libraries) (dir : String) (p : Program) (pkg : String)
    (h : p.Namespaces.lookup lang = some pkg) :
    GetOutputDir L dir p = L.Join (dir :: getPackageComponents pkg)
    ∧ String.intercalate "." (getPackageComponents pkg) = pkg
    ∧ (∀ c ∈ getPackageComponents pkg, '.' ∉ c.data)
    ∧ ∀ name, GetOutputDir L dir { p with Name := name } = GetOutputDir L dir p := by
  refine ⟨by simp [GetOutputDir, h], getPackageComponents_join pkg,
    fun c hc => getPackageComponents_no_dot pkg c hc, ?_⟩
  intro name
  simp [GetOutputDir, h]

theorem output_dir_with_namespace_witness :
    barProgram.Namespaces.lookup lang = some "com.example.bar"
    ∧ getPackageComponents "com.example.bar" = ["com", "example", "bar"]
    ∧ GetOutputDir sampleLibraries "gen-dart" barProgram = "gen-dart/com/example/bar" :=
  ⟨by decide, by decide,
   (output_dir_with_namespace sampleLibraries "gen-dart" barProgram "com.example.bar"
      (by decide)).1.trans (by decide)⟩

/-- C18: for a program that declares no namespace for the target `dart`, `GetOutputDir`
returns the join of the base directory and the name of the program as it is written,
whereas the name in the manifest and the name of the aggregate file are the lower-cased
name; the result is a path in every case, there is no error to return. -/
theorem output_dir_without_namespace (G : Globals) (L : Libraries) (dir : String)
    (p : Program) (h : p.Namespaces.lookup lang = none) :
    GetOutputDir L dir p = L.Join [dir, p.Name]
    ∧ (pubspecOf G p).Name = G.ToLower p.Name
    ∧ mainFilePath G L p dir = L.Join [dir, "lib", G.ToLower p.Name ++ ".dart"] := by
  refine ⟨by simp [GetOutputDir, h], rfl, ?_⟩
  have hname : G.ToLower p.Name ++ "." ++ lang = G.ToLower p.Name ++ ".dart" := by
    apply String.ext
    simp only [lang, String.data_append, List.append_assoc]
    rfl
  simp only [mainFilePath, hname]

theorem output_dir_without_namespace_witness :
    fooProgram.Namespaces.lookup lang = none
    ∧ GetOutputDir sampleLibraries "gen-dart" fooProgram = "gen-dart/Foo"
    ∧ (pubspecOf sampleGlobals fooProgram).Name = "foo" :=
  have h := output_dir_without_namespace sampleGlobals sampleLibraries "gen-dart" fooProgram
    (by decide)
  ⟨by decide, h.1.trans (by decide), h.2.1.trans (by decide)⟩

/-- C20: `getPackageComponents` gives at least one component for every text, the empty one
included, so the index `len(components)-1` of `GeneratePackage` is in range and
`GeneratePackage` always writes a text: `library <last component>.src.<FilePrefix>
<lowercase(scope.Name)>;` when the program declares a namespace for `dart`, and
`library <program name>.src.<FilePrefix><lowercase(scope.Name)>;` when it does not. -/
theorem package_index_in_range (G : Globals) (p : Program) (scope : Scope) :
    (∀ pkg, getPackageComponents pkg ≠ [])
    ∧ getPackageComponents "" = [""]
    ∧ (GeneratePackage G p scope).isSome = true
    ∧ (∀ pkg, p.Namespaces.lookup lang = some pkg →
        ∃ last, (getPackageComponents pkg).getLast? = some last
          ∧ GeneratePackage G p scope
              = some ("library " ++ last ++ ".src." ++ G.FilePrefix
                  ++ G.ToLower scope.Name ++ ";"))
    ∧ (p.Namespaces.lookup lang = none →
        GeneratePackage G p scope
          = some ("library " ++ p.Name ++ ".src." ++ G.FilePrefix
              ++ G.ToLower scope.Name ++ ";")) := by
  have hlast : ∀ pkg, ∃ last, (getPackageComponents pkg).getLast? = some last
      ∧ (getPackageComponents pkg)[(getPackageComponents pkg).length - 1]?
          = some last := by
    intro pkg
    have hne := getPackageComponents_ne_nil pkg
    refine ⟨(getPackageComponents pkg).getLast hne, List.getLast?_eq_getLast _ hne, ?_⟩
    rw [← List.getLast?_eq_getElem?, List.getLast?_eq_getLast _ hne]
  refine ⟨getPackageComponents_ne_nil, by decide, ?_, ?_, ?_⟩
  · unfold GeneratePackage
    cases hl : p.Namespaces.lookup lang with
    | none => simp
    | some pkg =>
      obtain ⟨last, _, h2⟩ := hlast pkg
      simp [h2]
  · intro pkg hl
    obtain ⟨last, h1, h2⟩ := hlast pkg
    exact ⟨last, h1, by simp [GeneratePackage, hl, h2]⟩
  · intro hl
    simp [GeneratePackage, hl]

theorem package_index_in_range_witness :
    GeneratePackage sampleGlobals barProgram eventsScope = some "library bar.src.f_events;"
    ∧ GeneratePackage sampleGlobals fooProgram eventsScope
        = some "library Foo.src.f_events;" :=
  ⟨by
    obtain ⟨last, h1, h2⟩ := (package_index_in_range sampleGlobals barProgram eventsScope).2.2.2.1
      "com.example.bar" (by decide)
    have hbar : (getPackageComponents "com.example.bar").getLast? = some "bar" := by decide
    have hlast : last = "bar" := Option.some.inj (h1.symm.trans hbar)
    subst hlast
    exact h2.trans (by decide),
   ((package_index_in_range sampleGlobals fooProgram eventsScope).2.2.2.2 (by decide)).trans
     (by decide)⟩

end Dartlang
